import Mathlib

/-!
# Samsung HVAC bus: frame scanner, protocol detector and outgoing queue

A shallow embedding of `components/samsung_ac/protocol.cpp` (`skip_data`,
`process_data`) and of the send queue of `components/samsung_ac/samsung_ac.cpp`
(`publish_data`, `ack_data`, `write_data`).

Conventions of the embedding:
* a byte (`uint8_t`) is a `Nat`; a `std::vector<uint8_t>` is a `List Nat`;
* `uint16_t` and `uint32_t` arithmetic is written with an explicit `% 65536`
  or `% 4294967296`; `uint8_t` increments with `% 256`;
* `millis()` is the argument `now` of the operation that reads it;
* logging (`LOGW`, `LOG_RAW_SEND`, ...) and the flow-control pin toggled by
  `before_write`/`after_write` do not influence any modelled state and are left out;
* the two family decoders `try_decode_non_nasa_packet` and
  `try_decode_nasa_packet` live in files outside this development and are
  parameters of `process_data`.
-/

namespace SamsungAC

/-! ## Protocol types (used by `protocol.cpp`) -/

/-- Tag of a scan result: `Fill` asks for more data, `Discard` drops bytes,
`Processed` reports a decoded frame. -/
inductive DecodeResultType where
  | Fill
  | Discard
  | Processed
  deriving DecidableEq, Repr

/-- Result of one scan: the tag and a byte count. -/
structure DecodeResult where
  type : DecodeResultType
  bytes : Nat
  deriving DecidableEq, Repr

/-- The global `protocol_processing` flag. -/
inductive ProtocolProcessing where
  | Auto
  | NASA
  | NonNASA
  deriving DecidableEq, Repr

/-- The external functions `process_data` may call, in call order. -/
inductive Call where
  | try_decode_non_nasa_packet
  | process_non_nasa_packet
  | try_decode_nasa_packet
  | process_nasa_packet
  deriving DecidableEq, Repr

/-- The two family decoders, each a function of the buffer. -/
structure Decoders where
  try_decode_non_nasa_packet : List Nat → DecodeResult
  try_decode_nasa_packet : List Nat → DecodeResult

/-- What one call of `process_data` yields: the returned `DecodeResult`, the value
of the global `protocol_processing` after the call, and the external calls made. -/
structure ProcessOutcome where
  result : DecodeResult
  protocol_processing : ProtocolProcessing
  calls : List Call
  deriving DecidableEq, Repr

/-- `uint16_t skip_data(std::vector<uint8_t> &data, int from)`:
`std::find(data.begin() + from, data.end(), 0x32) - data.begin()`, converted to
`uint16_t`. `std::find` yields `data.end()` when no element matches. -/
def skip_data (data : List Nat) (start : Nat) : Nat :=
  (start + (data.drop start).findIdx (fun b => b == 0x32)) % 65536

/-- `DecodeResult process_data(std::vector<uint8_t> &data, MessageTarget *target)`.
The global `protocol_processing` is passed in and returned. On an empty vector the
source dereferences `data.begin()`, which is undefined: the model returns `none`. -/
def process_data (dec : Decoders) (protocol_processing : ProtocolProcessing)
    (data : List Nat) : Option ProcessOutcome :=
  match data with
  | [] => none
  | first :: _ =>
    if first ≠ 0x32 then
      some ⟨⟨.Discard, skip_data data 0⟩, protocol_processing, []⟩
    else
      let result : DecodeResult := ⟨.Fill, 0⟩
      let tried : Bool :=
        decide (protocol_processing = .Auto ∨ protocol_processing = .NonNASA)
      let result := if tried then dec.try_decode_non_nasa_packet data else result
      let calls : List Call := if tried then [.try_decode_non_nasa_packet] else []
      if tried = true ∧ result.type = .Processed then
        some ⟨result,
          if protocol_processing = .Auto then .NonNASA else protocol_processing,
          calls ++ [.process_non_nasa_packet]⟩
      else if protocol_processing = .NonNASA then
        if result.type = .Discard then
          some ⟨⟨.Discard, skip_data data 1⟩, protocol_processing, calls⟩
        else
          some ⟨result, protocol_processing, calls⟩
      else
        let result := dec.try_decode_nasa_packet data
        let calls := calls ++ [.try_decode_nasa_packet]
        let locked : ProtocolProcessing :=
          if result.type = .Processed ∧ protocol_processing = .Auto then .NASA
          else protocol_processing
        let calls :=
          if result.type = .Processed then calls ++ [.process_nasa_packet] else calls
        if result.type = .Discard then
          some ⟨⟨.Discard, skip_data data 1⟩, locked, calls⟩
        else
          some ⟨result, locked, calls⟩

/-- A decoder pair that always asks for more data (used in concrete evaluations). -/
def fillDecoders : Decoders :=
  ⟨fun _ => ⟨.Fill, 0⟩, fun _ => ⟨.Fill, 0⟩⟩

/-- A decoder pair that always rejects the buffer (used in concrete evaluations). -/
def discardDecoders : Decoders :=
  ⟨fun _ => ⟨.Discard, 0⟩, fun _ => ⟨.Discard, 0⟩⟩

/-- A decoder pair whose Non-NASA side asks for more data and whose NASA side
rejects the buffer (used in concrete evaluations). -/
def fillThenDiscardDecoders : Decoders :=
  ⟨fun _ => ⟨.Fill, 0⟩, fun _ => ⟨.Discard, 0⟩⟩

/-- A decoder pair whose Non-NASA side decodes a 14-byte frame and whose NASA side
would decode a frame as well (used in concrete evaluations). -/
def bothDecodeDecoders : Decoders :=
  ⟨fun _ => ⟨.Processed, 14⟩, fun _ => ⟨.Processed, 16⟩⟩

/-! ## The send queue (`samsung_ac.h`, `samsung_ac.cpp`) -/

/-- `const uint16_t silenceInterval = 100;` time to wait since last wire activity
before sending. -/
def silenceInterval : Nat := 100

/-- `const uint16_t retryInterval = 500;` minimum time before a retry attempt. -/
def retryInterval : Nat := 500

/-- `const uint8_t minRetries = 1;` minimum number of retries, even beyond timeout. -/
def minRetries : Nat := 1

/-- `const uint16_t sendTimeout = 4000;` maximum time to wait before discarding
a command. -/
def sendTimeout : Nat := 4000

/-- Difference of two `uint32_t` values, as computed by `a - b` in the source. -/
def sub32 (a b : Nat) : Nat :=
  (a % 4294967296 + 4294967296 - b % 4294967296) % 4294967296

/-- `struct OutgoingData`. -/
structure OutgoingData where
  id : Nat
  data : List Nat
  nextRetry : Nat
  timeout : Nat
  retries : Nat
  deriving DecidableEq, Repr

/-- The members of `class Samsung_AC` read or written by the scan and send paths,
together with `written`, the arguments of the `write_array` calls made on the UART
so far, oldest first. -/
structure Samsung_AC where
  send_queue_ : List OutgoingData
  data_ : List Nat
  last_transmission_ : Nat
  last_protocol_update_ : Nat
  data_processing_init : Bool
  written : List (List Nat)
  deriving DecidableEq, Repr

/-- A freshly constructed `Samsung_AC` (the member initialisers of the class),
with nothing written to the UART yet. -/
def Samsung_AC.init : Samsung_AC :=
  { send_queue_ := [], data_ := [], last_transmission_ := 0,
    last_protocol_update_ := 0, data_processing_init := true, written := [] }

/-- `void Samsung_AC::publish_data(uint8_t id, std::vector<uint8_t> &&data)`,
with `now = millis()`. -/
def publish_data (now : Nat) (id : Nat) (data : List Nat) (s : Samsung_AC) : Samsung_AC :=
  if id = 0 then
    { s with last_transmission_ := now, written := s.written ++ [data] }
  else
    let outData : OutgoingData :=
      { id := id, data := data, nextRetry := 0, retries := 0,
        timeout := (now + sendTimeout) % 4294967296 }
    { s with send_queue_ := s.send_queue_ ++ [outData] }

/-- `void Samsung_AC::ack_data(uint8_t id)`. -/
def ack_data (id : Nat) (s : Samsung_AC) : Samsung_AC :=
  match s.send_queue_ with
  | [] => s
  | senddata :: rest =>
    if senddata.id = id then { s with send_queue_ := rest } else s

/-- `bool Samsung_AC::write_data()`, with `now = millis()`; yields the new state
and the returned flag. -/
def write_data (now : Nat) (s : Samsung_AC) : Samsung_AC × Bool :=
  match s.send_queue_ with
  | [] => (s, false)
  | senddata :: rest =>
    if senddata.timeout ≤ now ∧ senddata.retries ≥ minRetries then
      ({ s with send_queue_ := rest }, true)
    else if sub32 now s.last_transmission_ > silenceInterval ∧ senddata.nextRetry < now then
      let retries :=
        if senddata.nextRetry > 0 then (senddata.retries + 1) % 256 else senddata.retries
      ({ s with
          last_transmission_ := now
          send_queue_ :=
            { senddata with
                retries := retries
                nextRetry := (now + retryInterval) % 4294967296 } :: rest
          written := s.written ++ [senddata.data] }, true)
    else
      (s, true)

/-! ## Runs of queue operations -/

/-- One call on the send queue. -/
inductive Op where
  | publish_data (now id : Nat) (data : List Nat)
  | ack_data (id : Nat)
  | write_data (now : Nat)
  deriving DecidableEq, Repr

/-- Effect of one call on the state. -/
def step (s : Samsung_AC) : Op → Samsung_AC
  | .publish_data now id data => publish_data now id data s
  | .ack_data id => ack_data id s
  | .write_data now => (write_data now s).1

/-- Bookkeeping beside the state: `sent` holds, for each queued frame in queue
order, how many times its bytes have been written to the UART. It is updated from
the observable effect of the call: a frame that joins the queue starts at `0`, a
frame that leaves the queue takes its counter with it, and a `write_data` that
writes to the UART (it only ever writes the head's bytes) adds one to the head. -/
def track (s : Samsung_AC) (sent : List Nat) (op : Op) : List Nat :=
  match op with
  | .publish_data _ _ _ =>
    if (step s op).send_queue_.length = s.send_queue_.length + 1 then sent ++ [0] else sent
  | .ack_data _ =>
    if (step s op).send_queue_.length < s.send_queue_.length then sent.tail else sent
  | .write_data _ =>
    if (step s op).send_queue_.length < s.send_queue_.length then sent.tail
    else if (step s op).written.length = s.written.length + 1 then
      match sent with
      | [] => []
      | c :: cs => (c + 1) :: cs
    else sent

/-- Run a list of calls, carrying the counters along. -/
def run : Samsung_AC × List Nat → List Op → Samsung_AC × List Nat
  | c, [] => c
  | c, op :: ops => run (step c.1 op, track c.1 c.2 op) ops

/-- A `write_data` call at `now` removes the head through the expiry branch
exactly when it shortens the queue (the only `pop_front` in `write_data`). -/
def expires (now : Nat) (s : Samsung_AC) : Prop :=
  (write_data now s).1.send_queue_.length < s.send_queue_.length

instance (now : Nat) (s : Samsung_AC) : Decidable (expires now s) := by
  unfold expires; infer_instance

/-- What the counter `c` of a queued frame `f` must satisfy: a frame with a
non-zero `nextRetry` has been written at least once, and a frame with a non-zero
`retries` at least twice. -/
def FrameSent (f : OutgoingData) (c : Nat) : Prop :=
  (0 < f.nextRetry → 1 ≤ c) ∧ (1 ≤ f.retries → 2 ≤ c)

instance (f : OutgoingData) (c : Nat) : Decidable (FrameSent f c) := by
  unfold FrameSent; infer_instance

/-! ## The scheduler tick (`samsung_ac.cpp`: `read_data`, `loop`) -/

/-- A call that code outside this development makes on the `MessageTarget`
interface of `Samsung_AC` and that touches the send path: the packet dispatchers
and a device's `protocol_update` reach the queue only through `publish_data` and
`ack_data` (`write_data` and the members are protected). -/
inductive TargetCall where
  | publish_data (now id : Nat) (data : List Nat)
  | ack_data (id : Nat)
  deriving DecidableEq, Repr

/-- Effect of one `MessageTarget` call on the component. -/
def TargetCall.run (s : Samsung_AC) : TargetCall → Samsung_AC
  | .publish_data now id data => SamsungAC.publish_data now id data s
  | .ack_data id => SamsungAC.ack_data id s

/-- The code outside this development that a tick calls: the two family decoders,
the two packet dispatchers (`process_non_nasa_packet`, `process_nasa_packet`) and
`Samsung_AC_Device::protocol_update`, each dispatcher and update given as the
`MessageTarget` calls it makes for the buffer (or device address) and the current
component state. -/
structure Collaborators where
  decoders : Decoders
  process_non_nasa_packet : List Nat → Samsung_AC → List TargetCall
  process_nasa_packet : List Nat → Samsung_AC → List TargetCall
  protocol_update : String → Samsung_AC → List TargetCall

/-- The `MessageTarget` calls made by the dispatcher that `process_data` called,
if it called one (`calls` is the call trace of `process_data`). -/
def dispatched (env : Collaborators) (data : List Nat) (s : Samsung_AC)
    (calls : List Call) : List TargetCall :=
  if Call.process_non_nasa_packet ∈ calls then env.process_non_nasa_packet data s
  else if Call.process_nasa_packet ∈ calls then env.process_nasa_packet data s
  else []

/-- The component together with the global `protocol_processing` and the addresses
of the registered devices (the keys of `devices_`, in iteration order). -/
structure Bus where
  ac : Samsung_AC
  protocol_processing : ProtocolProcessing
  devices_ : List String
  deriving DecidableEq, Repr

/-- What a tick of `loop` calls, in call order. -/
inductive Event where
  | read_data
  | write_data
  | protocol_update (address : String)
  deriving DecidableEq, Repr

/-- The values `millis()` returns in one tick: at the start of `loop`, in
`read_data` and in `write_data`. -/
structure Millis where
  loop : Nat
  read_data : Nat
  write_data : Nat
  deriving DecidableEq, Repr

/-- `bool Samsung_AC::read_data()`, with `rx` the bytes the UART has available and
`now = millis()`. The result is `none` where the source is undefined: `process_data`
on an empty vector (not reached, `data_` is checked first) and an erase of more
bytes than `data_` holds. -/
def read_data (env : Collaborators) (now : Nat) (rx : List Nat) (b : Bus) :
    Option (Bus × Bool) :=
  let data_ := b.ac.data_ ++ rx
  let b : Bus := { b with ac := { b.ac with data_ := data_ } }
  if data_ = [] then some (b, true)
  else
    match process_data env.decoders b.protocol_processing data_ with
    | none => none
    | some out =>
      let ac := (dispatched env data_ b.ac out.calls).foldl TargetCall.run b.ac
      let b : Bus := { b with ac := ac, protocol_processing := out.protocol_processing }
      if out.result.type = .Fill then some (b, false)
      else if out.result.type = .Discard ∧ out.result.bytes = data_.length ∧
          sub32 now ac.last_transmission_ < 1000 then
        some (b, false)
      else if out.result.bytes = data_.length then
        some ({ b with ac := { ac with data_ := [], last_transmission_ := now } }, false)
      else if out.result.bytes < data_.length then
        some ({ b with
                ac := { ac with
                        data_ := data_.drop out.result.bytes
                        last_transmission_ := now } }, false)
      else none

/-- The `protocol_update` round of `loop`: every registered device in turn. -/
def protocol_updates (env : Collaborators) (devices : List String) (s : Samsung_AC) :
    Samsung_AC :=
  devices.foldl (fun ac address => (env.protocol_update address ac).foldl TargetCall.run ac) s

/-- `void Samsung_AC::loop()`, with the state after the tick and the calls made. -/
def loop (env : Collaborators) (t : Millis) (rx : List Nat) (b : Bus) :
    Option (Bus × List Event) :=
  if b.ac.data_processing_init = true then some (b, [])
  else
    match read_data env t.read_data rx b with
    | none => none
    | some (b, false) => some (b, [.read_data])
    | some (b, true) =>
      match write_data t.write_data b.ac with
      | (ac, true) => some ({ b with ac := ac }, [.read_data, .write_data])
      | (ac, false) =>
        if sub32 t.loop ac.last_protocol_update_ ≥ 200 then
          some ({ b with
                  ac := protocol_updates env b.devices_
                    { ac with last_protocol_update_ := t.loop } },
            [.read_data, .write_data] ++ b.devices_.map Event.protocol_update)
        else
          some ({ b with ac := ac }, [.read_data, .write_data])

/-- The byte sequences that a list of `MessageTarget` calls writes to the UART at
once: the arguments of its `publish_data` calls with id 0. -/
def immediateWrites : List TargetCall → List (List Nat)
  | [] => []
  | .publish_data _ id data :: calls =>
    if id = 0 then data :: immediateWrites calls else immediateWrites calls
  | .ack_data _ :: calls => immediateWrites calls

/-- How many `ack_data` calls a list of `MessageTarget` calls holds. -/
def acknowledgements : List TargetCall → Nat
  | [] => 0
  | .publish_data _ _ _ :: calls => acknowledgements calls
  | .ack_data _ :: calls => acknowledgements calls + 1

/-- Both decoders report at most the buffer length when they decode a frame. -/
def DecodersInBounds (dec : Decoders) : Prop :=
  ∀ data,
    ((dec.try_decode_non_nasa_packet data).type = .Processed →
      (dec.try_decode_non_nasa_packet data).bytes ≤ data.length) ∧
    ((dec.try_decode_nasa_packet data).type = .Processed →
      (dec.try_decode_nasa_packet data).bytes ≤ data.length)

/-- What holds of a frame behind the head and its counter: it has never been sent. -/
def Unsent (f : OutgoingData) (c : Nat) : Prop :=
  f.retries = 0 ∧ f.nextRetry = 0 ∧ c = 0

/-- Collaborators that ask for more data, dispatch nothing and whose devices ask
for nothing (used in concrete evaluations). -/
def quietCollaborators : Collaborators :=
  ⟨fillDecoders, fun _ _ => [], fun _ _ => [], fun _ _ => []⟩

/-- Collaborators whose Non-NASA decoder decodes a two-byte frame and whose Non-NASA
dispatcher acknowledges id 7 (used in concrete evaluations). -/
def ackingCollaborators : Collaborators :=
  ⟨⟨fun _ => ⟨.Processed, 2⟩, fun _ => ⟨.Fill, 0⟩⟩,
    fun _ _ => [.ack_data 7], fun _ _ => [], fun _ _ => []⟩

/-- Data processing has started, nothing is buffered, one device is registered, and
the frame of `sentOnce` waits at the head for its retry time. -/
def waitingBus : Bus :=
  { ac := { Samsung_AC.init with
            data_processing_init := false
            send_queue_ := [⟨7, [0x01, 0x02], 700, 4000, 0⟩]
            last_transmission_ := 200
            written := [[0x01, 0x02]] }
    protocol_processing := .NASA
    devices_ := ["20.00.00"] }

/-- Data processing has started, the buffer holds the start of a frame (`32 00`),
the queue is empty and the bus was last active at time 50. -/
def partialFrameBus : Bus :=
  { ac := { Samsung_AC.init with
            data_processing_init := false
            data_ := [0x32, 0x00]
            last_transmission_ := 50 }
    protocol_processing := .Auto
    devices_ := ["20.00.00"] }

/-- Data processing has started and nothing is buffered or queued. -/
def idleBus : Bus :=
  { ac := { Samsung_AC.init with data_processing_init := false }
    protocol_processing := .Auto
    devices_ := ["20.00.00"] }

/-- Data processing has started, the buffer holds the start of a frame (`32 00`),
a never-sent frame is queued and the bus was last active at time 0. -/
def pendingReadBus : Bus :=
  { ac := { Samsung_AC.init with
            data_processing_init := false
            data_ := [0x32, 0x00]
            send_queue_ := [⟨7, [0x01, 0x02], 0, 4000, 0⟩] }
    protocol_processing := .Auto
    devices_ := ["20.00.00"] }

/-! ## Concrete inputs used in evaluations -/

/-- A decoder pair that agrees with `bothDecodeDecoders` on the Non-NASA side only. -/
def nonNasaOnlyDecoders : Decoders :=
  ⟨fun _ => ⟨.Processed, 14⟩, fun _ => ⟨.Fill, 0⟩⟩

/-- A queue of two never-sent frames with ids 5 and 7. -/
def twoQueued : Samsung_AC :=
  { Samsung_AC.init with
    send_queue_ := [⟨5, [0x32, 0x05], 0, 4000, 0⟩, ⟨7, [0x32, 0x07], 0, 4000, 0⟩] }

/-- A never-sent frame at the head, bus last active at time 0. -/
def freshHead : Samsung_AC :=
  { Samsung_AC.init with send_queue_ := [⟨7, [0x01, 0x02], 0, 4000, 0⟩] }

/-- A frame sent once at time 200, to be retried from time 700. -/
def sentOnce : Samsung_AC :=
  { Samsung_AC.init with
    send_queue_ := [⟨7, [0x01, 0x02], 700, 4000, 0⟩]
    last_transmission_ := 200
    written := [[0x01, 0x02]] }

/-! ## Lemmas on `skip_data` -/

/-- Position found by `std::find` from `start`: every byte from `start` up to it
differs from `0x32`, and it is the end of the buffer or holds `0x32`. -/
theorem skip_data_spec (data : List Nat) (start : Nat) (hs : start ≤ data.length) :
    ∃ k, start ≤ k ∧ k ≤ data.length ∧
      (∀ i, start ≤ i → i < k → data[i]? ≠ some 0x32) ∧
      (k = data.length ∨ data[k]? = some 0x32) ∧
      skip_data data start = k % 65536 := by
  refine ⟨start + (data.drop start).findIdx (fun b => b == 0x32), Nat.le_add_right _ _, ?_, ?_, ?_, rfl⟩
  · have h := @List.findIdx_le_length Nat (fun b => b == 0x32) (data.drop start)
    rw [List.length_drop] at h
    omega
  · intro i hi hik hget
    have hlt : i - start < (data.drop start).findIdx (fun b => b == 0x32) := by omega
    have hlen : i - start < (data.drop start).length :=
      lt_of_lt_of_le hlt (List.findIdx_le_length _)
    have hnot := List.not_of_lt_findIdx hlt
    have hidx : (data.drop start)[i - start]? = some 0x32 := by
      rw [List.getElem?_drop]
      have : start + (i - start) = i := by omega
      rw [this]; exact hget
    rw [List.getElem?_eq_getElem hlen] at hidx
    simp only [Option.some.injEq] at hidx
    simp [hidx] at hnot
  · by_cases hlt : (data.drop start).findIdx (fun b => b == 0x32) < (data.drop start).length
    · right
      have hp := List.findIdx_getElem (w := hlt)
      simp only [beq_iff_eq] at hp
      rw [← List.getElem?_drop, List.getElem?_eq_getElem hlt, hp]
    · left
      have h := @List.findIdx_le_length Nat (fun b => b == 0x32) (data.drop start)
      have hlen := List.length_drop start data
      omega

/-- In a buffer of zero bytes, `std::find` reaches the end. -/
theorem findIdx_zeros (n : Nat) :
    (List.replicate n 0).findIdx (fun b => b == 0x32) = n := by
  induction n with
  | zero => rfl
  | succ n ih => simp [List.replicate_succ, List.findIdx_cons, ih]

/-- On `n + 1` zero bytes `skip_data` yields the length, reduced to 16 bits. -/
theorem skip_data_zeros (n : Nat) :
    skip_data (0 :: List.replicate n 0) 0 = (n + 1) % 65536 := by
  have h := findIdx_zeros (n + 1)
  rw [List.replicate_succ] at h
  unfold skip_data
  rw [List.drop_zero, h, Nat.zero_add]

/-- Length of a buffer of `n + 1` zero bytes. -/
theorem length_zeros (n : Nat) : (0 :: List.replicate n 0).length = n + 1 := by
  rw [List.length_cons, List.length_replicate]

/-! ## Lemmas on `process_data`, one per path through the function -/

/-- First byte not `0x32`: line 28-29 of `protocol.cpp`. -/
theorem process_data_no_marker (dec : Decoders) (mode : ProtocolProcessing)
    (first : Nat) (rest : List Nat) (hfirst : first ≠ 0x32) :
    process_data dec mode (first :: rest) =
      some ⟨⟨.Discard, skip_data (first :: rest) 0⟩, mode, []⟩ := by
  simp [process_data, hfirst]

/-- Buffer starts with `0x32`, mode locked to Non-NASA. -/
theorem process_data_nonnasa (dec : Decoders) (rest : List Nat) :
    process_data dec .NonNASA (0x32 :: rest) =
      if (dec.try_decode_non_nasa_packet (0x32 :: rest)).type = .Processed then
        some ⟨dec.try_decode_non_nasa_packet (0x32 :: rest), .NonNASA,
          [.try_decode_non_nasa_packet, .process_non_nasa_packet]⟩
      else if (dec.try_decode_non_nasa_packet (0x32 :: rest)).type = .Discard then
        some ⟨⟨.Discard, skip_data (0x32 :: rest) 1⟩, .NonNASA, [.try_decode_non_nasa_packet]⟩
      else
        some ⟨dec.try_decode_non_nasa_packet (0x32 :: rest), .NonNASA,
          [.try_decode_non_nasa_packet]⟩ := by
  simp [process_data]

/-- Buffer starts with `0x32`, mode locked to NASA. -/
theorem process_data_nasa (dec : Decoders) (rest : List Nat) :
    process_data dec .NASA (0x32 :: rest) =
      if (dec.try_decode_nasa_packet (0x32 :: rest)).type = .Processed then
        some ⟨dec.try_decode_nasa_packet (0x32 :: rest), .NASA,
          [.try_decode_nasa_packet, .process_nasa_packet]⟩
      else if (dec.try_decode_nasa_packet (0x32 :: rest)).type = .Discard then
        some ⟨⟨.Discard, skip_data (0x32 :: rest) 1⟩, .NASA, [.try_decode_nasa_packet]⟩
      else
        some ⟨dec.try_decode_nasa_packet (0x32 :: rest), .NASA, [.try_decode_nasa_packet]⟩ := by
  simp only [process_data]
  split_ifs <;> simp_all

/-- Buffer starts with `0x32`, mode still `Auto`. -/
theorem process_data_auto (dec : Decoders) (rest : List Nat) :
    process_data dec .Auto (0x32 :: rest) =
      if (dec.try_decode_non_nasa_packet (0x32 :: rest)).type = .Processed then
        some ⟨dec.try_decode_non_nasa_packet (0x32 :: rest), .NonNASA,
          [.try_decode_non_nasa_packet, .process_non_nasa_packet]⟩
      else if (dec.try_decode_nasa_packet (0x32 :: rest)).type = .Processed then
        some ⟨dec.try_decode_nasa_packet (0x32 :: rest), .NASA,
          [.try_decode_non_nasa_packet, .try_decode_nasa_packet, .process_nasa_packet]⟩
      else if (dec.try_decode_nasa_packet (0x32 :: rest)).type = .Discard then
        some ⟨⟨.Discard, skip_data (0x32 :: rest) 1⟩, .Auto,
          [.try_decode_non_nasa_packet, .try_decode_nasa_packet]⟩
      else
        some ⟨dec.try_decode_nasa_packet (0x32 :: rest), .Auto,
          [.try_decode_non_nasa_packet, .try_decode_nasa_packet]⟩ := by
  simp only [process_data]
  split_ifs <;> simp_all

/-- On 65536 zero bytes the 16-bit byte count wraps to `0`. -/
theorem process_data_zeros :
    process_data fillDecoders .Auto (0 :: List.replicate 65535 0) =
      some ⟨⟨.Discard, 0⟩, .Auto, []⟩ := by
  have hskip : skip_data (0 :: List.replicate 65535 0) 0 = 0 :=
    (skip_data_zeros 65535).trans (by norm_num)
  exact (process_data_no_marker fillDecoders .Auto 0 (List.replicate 65535 0)
    (by decide)).trans
      (congrArg (fun n => some (ProcessOutcome.mk ⟨.Discard, n⟩ .Auto [])) hskip)

/-! ## Frame scanner and protocol detector: the claims -/

/-- C1, counterexample: a buffer of 65536 zero bytes is non-empty, does not start
with `0x32` and contains no `0x32`, yet the reported byte count is `0`, not the
buffer length 65536: the count is a `uint16_t`. So it is not true that for every
buffer not starting with `0x32` the count is the index of the first `0x32`, or the
buffer length when there is none. -/
theorem process_data_count_wraps_at_65536 :
    ((0 :: List.replicate 65535 0).length = 65536 ∧
      (∀ b ∈ 0 :: List.replicate 65535 0, b ≠ 0x32) ∧
      process_data fillDecoders .Auto (0 :: List.replicate 65535 0) =
        some ⟨⟨.Discard, 0⟩, .Auto, []⟩) ∧
    ¬ (∀ (dec : Decoders) (mode : ProtocolProcessing) (first : Nat) (rest : List Nat),
        first ≠ 0x32 →
        ∃ k, (∀ i, i < k → (first :: rest)[i]? ≠ some 0x32) ∧
          (k = (first :: rest).length ∨ (first :: rest)[k]? = some 0x32) ∧
          process_data dec mode (first :: rest) = some ⟨⟨.Discard, k⟩, mode, []⟩) := by
  refine ⟨⟨length_zeros 65535, fun b hb => ?_, process_data_zeros⟩, fun hall => ?_⟩
  · have hb0 : b = 0 := by
      rcases List.mem_cons.mp hb with h | h
      · exact h
      · exact List.eq_of_mem_replicate h
    rw [hb0]
    decide
  · obtain ⟨k, -, hat, hres⟩ :=
      hall fillDecoders .Auto 0 (List.replicate 65535 0) (by decide)
    rw [process_data_zeros] at hres
    have hk : k = 0 := by
      simp only [Option.some.injEq, ProcessOutcome.mk.injEq, DecodeResult.mk.injEq,
        true_and, and_true] at hres
      exact hres.symm
    subst hk
    rcases hat with hlen | hget
    · rw [length_zeros] at hlen
      omega
    · rw [List.getElem?_cons_zero] at hget
      simp at hget

/-- C1, amended: for a buffer whose first byte is not `0x32`, in every mode and
with any decoders, `process_data` returns `Discard` without calling a decoder and
without changing the mode; its byte count is `k % 65536`, where `k` is the index of
the first `0x32` (no earlier byte is `0x32`, and `k` is the buffer length or
holds `0x32`); for a buffer shorter than 65536 bytes the count is `k` itself. -/
theorem process_data_discards_to_first_marker (dec : Decoders) (mode : ProtocolProcessing)
    (first : Nat) (rest : List Nat) (hfirst : first ≠ 0x32) :
    ∃ k, k ≤ (first :: rest).length ∧
      (∀ i, i < k → (first :: rest)[i]? ≠ some 0x32) ∧
      (k = (first :: rest).length ∨ (first :: rest)[k]? = some 0x32) ∧
      process_data dec mode (first :: rest) = some ⟨⟨.Discard, k % 65536⟩, mode, []⟩ ∧
      ((first :: rest).length < 65536 →
        process_data dec mode (first :: rest) = some ⟨⟨.Discard, k⟩, mode, []⟩) := by
  obtain ⟨k, -, hk, hbefore, hat, hskip⟩ := skip_data_spec (first :: rest) 0 (Nat.zero_le _)
  have hres : process_data dec mode (first :: rest) =
      some ⟨⟨.Discard, k % 65536⟩, mode, []⟩ := by
    rw [process_data_no_marker dec mode first rest hfirst, hskip]
  refine ⟨k, hk, fun i hi => hbefore i (Nat.zero_le _) hi, hat, hres, ?_⟩
  intro hlen
  rw [hres, Nat.mod_eq_of_lt (lt_of_le_of_lt hk hlen)]

/-- C1, amended, at the buffer `ff fe 32 00` of the example in `skip_data`. -/
theorem process_data_discards_to_first_marker_witness :
    ∃ k, k ≤ [0xFF, 0xFE, 0x32, 0x00].length ∧
      (∀ i, i < k → [0xFF, 0xFE, 0x32, 0x00][i]? ≠ some 0x32) ∧
      (k = [0xFF, 0xFE, 0x32, 0x00].length ∨ [0xFF, 0xFE, 0x32, 0x00][k]? = some 0x32) ∧
      process_data fillDecoders .NASA [0xFF, 0xFE, 0x32, 0x00] =
        some ⟨⟨.Discard, k % 65536⟩, .NASA, []⟩ ∧
      ([0xFF, 0xFE, 0x32, 0x00].length < 65536 →
        process_data fillDecoders .NASA [0xFF, 0xFE, 0x32, 0x00] =
          some ⟨⟨.Discard, k⟩, .NASA, []⟩) :=
  process_data_discards_to_first_marker fillDecoders .NASA 0xFF [0xFE, 0x32, 0x00] (by decide)

/-- C2, counterexample: the buffer `32 00 00` is rejected by the permitted decoder
in each of the three modes, and three bytes are discarded, not one. So it is not
true that a rejected buffer starting with `0x32` always yields `Discard` of one
byte. -/
theorem process_data_rejected_marker_drops_three :
    (process_data discardDecoders .NonNASA [0x32, 0x00, 0x00] =
        some ⟨⟨.Discard, 3⟩, .NonNASA, [.try_decode_non_nasa_packet]⟩ ∧
      process_data discardDecoders .NASA [0x32, 0x00, 0x00] =
        some ⟨⟨.Discard, 3⟩, .NASA, [.try_decode_nasa_packet]⟩ ∧
      process_data discardDecoders .Auto [0x32, 0x00, 0x00] =
        some ⟨⟨.Discard, 3⟩, .Auto,
          [.try_decode_non_nasa_packet, .try_decode_nasa_packet]⟩) ∧
    ¬ (∀ (dec : Decoders) (mode : ProtocolProcessing) (rest : List Nat),
        (mode = .NonNASA →
          (dec.try_decode_non_nasa_packet (0x32 :: rest)).type = .Discard) →
        (mode = .NASA → (dec.try_decode_nasa_packet (0x32 :: rest)).type = .Discard) →
        (mode = .Auto →
          (dec.try_decode_non_nasa_packet (0x32 :: rest)).type = .Discard ∧
          (dec.try_decode_nasa_packet (0x32 :: rest)).type = .Discard) →
        ∃ out, process_data dec mode (0x32 :: rest) = some out ∧
          out.result = ⟨.Discard, 1⟩) := by
  refine ⟨by decide, fun hall => ?_⟩
  obtain ⟨out, hout, hres⟩ := hall discardDecoders .NonNASA [0x00, 0x00]
    (fun _ => rfl) (fun h => by cases h) (fun h => by cases h)
  have heval : process_data discardDecoders .NonNASA [0x32, 0x00, 0x00] =
      some ⟨⟨.Discard, 3⟩, .NonNASA, [.try_decode_non_nasa_packet]⟩ := by decide
  rw [heval] at hout
  cases hout
  simp at hres

/-- C2, amended: when the buffer starts with `0x32` and the permitted decoder(s)
report `Discard`, `process_data` returns `Discard` and leaves the mode unchanged;
its byte count is `k % 65536`, where `k ≥ 1` is the index of the first `0x32` after
position 0 (or the buffer length when there is none), and `k` itself for a buffer
shorter than 65536 bytes. The index `k` is 1 exactly when the buffer has length 1
or its second byte is `0x32`; for a buffer shorter than 65536 bytes the same holds
of the returned count (a longer buffer can wrap to a count of 1, `k = 65537`). -/
theorem process_data_rejected_marker_skips_to_next (dec : Decoders)
    (mode : ProtocolProcessing) (rest : List Nat)
    (hNonNasa : mode = .NonNASA →
      (dec.try_decode_non_nasa_packet (0x32 :: rest)).type = .Discard)
    (hNasa : mode = .NASA → (dec.try_decode_nasa_packet (0x32 :: rest)).type = .Discard)
    (hAuto : mode = .Auto →
      (dec.try_decode_non_nasa_packet (0x32 :: rest)).type = .Discard ∧
      (dec.try_decode_nasa_packet (0x32 :: rest)).type = .Discard) :
    ∃ k, 1 ≤ k ∧ k ≤ (0x32 :: rest).length ∧
      (∀ i, 1 ≤ i → i < k → (0x32 :: rest)[i]? ≠ some 0x32) ∧
      (k = (0x32 :: rest).length ∨ (0x32 :: rest)[k]? = some 0x32) ∧
      (k = 1 ↔ rest = [] ∨ rest.head? = some 0x32) ∧
      ∃ out, process_data dec mode (0x32 :: rest) = some out ∧
        out.result = ⟨.Discard, k % 65536⟩ ∧
        out.protocol_processing = mode ∧
        ((0x32 :: rest).length < 65536 → out.result = ⟨.Discard, k⟩) ∧
        ((0x32 :: rest).length < 65536 →
          (out.result.bytes = 1 ↔ rest = [] ∨ rest.head? = some 0x32)) := by
  obtain ⟨k, h1, hk, hbefore, hat, hskip⟩ :=
    skip_data_spec (0x32 :: rest) 1 (by simp)
  have hone : k = 1 ↔ rest = [] ∨ rest.head? = some 0x32 := by
    constructor
    · intro hk1
      subst hk1
      rcases hat with hlen | hget
      · left
        simpa using hlen
      · right
        cases rest with
        | nil => simp at hget
        | cons b bs => simpa using hget
    · rintro (hnil | hhead)
      · subst hnil
        simp at hk
        omega
      · cases rest with
        | nil => simp at hhead
        | cons b bs =>
          by_contra hne
          have hlt : 1 < k := by omega
          have := hbefore 1 (le_refl _) hlt
          simp at hhead
          simp [hhead] at this
  have hout : ∃ out, process_data dec mode (0x32 :: rest) = some out ∧
      out.result = ⟨.Discard, skip_data (0x32 :: rest) 1⟩ ∧
      out.protocol_processing = mode := by
    cases mode with
    | NonNASA =>
      have h := hNonNasa rfl
      rw [process_data_nonnasa]
      simp [h]
    | NASA =>
      have h := hNasa rfl
      rw [process_data_nasa]
      simp [h]
    | Auto =>
      obtain ⟨h1, h2⟩ := hAuto rfl
      rw [process_data_auto]
      simp [h1, h2]
  obtain ⟨out, hproc, hres, hmode⟩ := hout
  refine ⟨k, h1, hk, hbefore, hat, hone, out, hproc, ?_, hmode, ?_, ?_⟩
  · rw [hres, hskip]
  · intro hlen
    rw [hres, hskip, Nat.mod_eq_of_lt (lt_of_le_of_lt hk hlen)]
  · intro hlen
    rw [hres, hskip, Nat.mod_eq_of_lt (lt_of_le_of_lt hk hlen)]
    exact hone

/-- C2, amended, at the buffer `32 00 32 00` with the mode locked to Non-NASA. -/
theorem process_data_rejected_marker_skips_to_next_witness :
    ∃ k, 1 ≤ k ∧ k ≤ (0x32 :: [0x00, 0x32, 0x00]).length ∧
      (∀ i, 1 ≤ i → i < k → (0x32 :: [0x00, 0x32, 0x00])[i]? ≠ some 0x32) ∧
      (k = (0x32 :: [0x00, 0x32, 0x00]).length ∨
        (0x32 :: [0x00, 0x32, 0x00])[k]? = some 0x32) ∧
      (k = 1 ↔ [0x00, 0x32, 0x00] = [] ∨ [0x00, 0x32, 0x00].head? = some 0x32) ∧
      ∃ out, process_data discardDecoders .NonNASA (0x32 :: [0x00, 0x32, 0x00]) = some out ∧
        out.result = ⟨.Discard, k % 65536⟩ ∧
        out.protocol_processing = .NonNASA ∧
        ((0x32 :: [0x00, 0x32, 0x00]).length < 65536 → out.result = ⟨.Discard, k⟩) ∧
        ((0x32 :: [0x00, 0x32, 0x00]).length < 65536 →
          (out.result.bytes = 1 ↔
            [0x00, 0x32, 0x00] = [] ∨ [0x00, 0x32, 0x00].head? = some 0x32)) :=
  process_data_rejected_marker_skips_to_next discardDecoders .NonNASA [0x00, 0x32, 0x00]
    (fun _ => rfl) (fun h => by cases h) (fun h => by cases h)

/-- C3: the mode changes only by locking. On every non-empty buffer `process_data`
returns; a locked mode is unchanged; from `Auto` the mode becomes `NonNASA` when
the Non-NASA decoder was called and returned `Processed`, otherwise `NASA` when the
NASA decoder was called and returned `Processed`, otherwise it stays `Auto`. In the
first case the NASA decoder is not called and the Non-NASA decoder's result is
returned. With `Auto` and a buffer starting with `0x32` the Non-NASA decoder is
called, and the NASA decoder is called when the Non-NASA one did not decode. -/
theorem process_data_mode_only_locks (dec : Decoders) (mode : ProtocolProcessing)
    (data : List Nat) (hne : data ≠ []) :
    ∃ out, process_data dec mode data = some out ∧
      (mode ≠ .Auto → out.protocol_processing = mode) ∧
      (mode = .Auto → out.protocol_processing =
        if Call.try_decode_non_nasa_packet ∈ out.calls ∧
            (dec.try_decode_non_nasa_packet data).type = .Processed then .NonNASA
        else if Call.try_decode_nasa_packet ∈ out.calls ∧
            (dec.try_decode_nasa_packet data).type = .Processed then .NASA
        else .Auto) ∧
      (mode = .Auto → Call.try_decode_non_nasa_packet ∈ out.calls →
        (dec.try_decode_non_nasa_packet data).type = .Processed →
        Call.try_decode_nasa_packet ∉ out.calls ∧
        out.result = dec.try_decode_non_nasa_packet data) ∧
      (mode = .Auto → data.head? = some 0x32 →
        Call.try_decode_non_nasa_packet ∈ out.calls ∧
        ((dec.try_decode_non_nasa_packet data).type ≠ .Processed →
          Call.try_decode_nasa_packet ∈ out.calls)) := by
  cases data with
  | nil => exact absurd rfl hne
  | cons first rest =>
    by_cases hfirst : first = 0x32
    · subst hfirst
      cases mode with
      | NonNASA =>
        rw [process_data_nonnasa]
        split_ifs <;> simp
      | NASA =>
        rw [process_data_nasa]
        split_ifs <;> simp
      | Auto =>
        rw [process_data_auto]
        split_ifs <;> simp_all
    · rw [process_data_no_marker dec mode first rest hfirst]
      simp [hfirst]

/-- C3 at a buffer starting with `0x32` that both decoders would decode, in mode
`Auto`. -/
theorem process_data_mode_only_locks_witness :
    ∃ out, process_data bothDecodeDecoders .Auto [0x32, 0x00] = some out ∧
      (ProtocolProcessing.Auto ≠ .Auto → out.protocol_processing = .Auto) ∧
      (ProtocolProcessing.Auto = .Auto → out.protocol_processing =
        if Call.try_decode_non_nasa_packet ∈ out.calls ∧
            (bothDecodeDecoders.try_decode_non_nasa_packet [0x32, 0x00]).type = .Processed
        then .NonNASA
        else if Call.try_decode_nasa_packet ∈ out.calls ∧
            (bothDecodeDecoders.try_decode_nasa_packet [0x32, 0x00]).type = .Processed
        then .NASA
        else .Auto) ∧
      (ProtocolProcessing.Auto = .Auto → Call.try_decode_non_nasa_packet ∈ out.calls →
        (bothDecodeDecoders.try_decode_non_nasa_packet [0x32, 0x00]).type = .Processed →
        Call.try_decode_nasa_packet ∉ out.calls ∧
        out.result = bothDecodeDecoders.try_decode_non_nasa_packet [0x32, 0x00]) ∧
      (ProtocolProcessing.Auto = .Auto → [0x32, 0x00].head? = some 0x32 →
        Call.try_decode_non_nasa_packet ∈ out.calls ∧
        ((bothDecodeDecoders.try_decode_non_nasa_packet [0x32, 0x00]).type ≠ .Processed →
          Call.try_decode_nasa_packet ∈ out.calls)) :=
  process_data_mode_only_locks bothDecodeDecoders .Auto [0x32, 0x00] (by decide)

/-- C4, counterexample: in mode `Auto`, on the buffer `32 00`, the Non-NASA decoder
asks for more data and the NASA decoder rejects the buffer; `process_data` returns
`Discard` of two bytes, not `Fill`. So a Non-NASA `Fill` does not take precedence
over a NASA `Discard`. -/
theorem process_data_auto_discards_despite_fill :
    ((fillThenDiscardDecoders.try_decode_non_nasa_packet [0x32, 0x00]).type = .Fill ∧
      (fillThenDiscardDecoders.try_decode_nasa_packet [0x32, 0x00]).type = .Discard ∧
      process_data fillThenDiscardDecoders .Auto [0x32, 0x00] =
        some ⟨⟨.Discard, 2⟩, .Auto,
          [.try_decode_non_nasa_packet, .try_decode_nasa_packet]⟩) ∧
    ¬ (∀ (dec : Decoders) (rest : List Nat),
        (dec.try_decode_non_nasa_packet (0x32 :: rest)).type = .Fill →
        (dec.try_decode_nasa_packet (0x32 :: rest)).type ≠ .Processed →
        ∃ out, process_data dec .Auto (0x32 :: rest) = some out ∧
          out.result.type = .Fill) := by
  refine ⟨by decide, fun hall => ?_⟩
  obtain ⟨out, hout, hres⟩ := hall fillThenDiscardDecoders [0x00] rfl (by decide)
  have heval : process_data fillThenDiscardDecoders .Auto [0x32, 0x00] =
      some ⟨⟨.Discard, 2⟩, .Auto,
        [.try_decode_non_nasa_packet, .try_decode_nasa_packet]⟩ := by decide
  rw [heval] at hout
  cases hout
  simp at hres

/-- C4, amended: in mode `Auto` with a buffer starting with `0x32`, when the
Non-NASA decoder returns `Fill` and the NASA decoder does not decode a frame,
`process_data` follows the NASA decoder: it returns that decoder's `Fill` result
when the NASA decoder returned `Fill`, and `Discard` up to the next `0x32` after
position 0 when the NASA decoder returned `Discard`; the mode stays `Auto`. -/
theorem process_data_auto_follows_nasa (dec : Decoders) (rest : List Nat)
    (hA : (dec.try_decode_non_nasa_packet (0x32 :: rest)).type = .Fill)
    (hB : (dec.try_decode_nasa_packet (0x32 :: rest)).type ≠ .Processed) :
    ∃ out, process_data dec .Auto (0x32 :: rest) = some out ∧
      out.protocol_processing = .Auto ∧
      ((dec.try_decode_nasa_packet (0x32 :: rest)).type = .Fill →
        out.result = dec.try_decode_nasa_packet (0x32 :: rest) ∧ out.result.type = .Fill) ∧
      ((dec.try_decode_nasa_packet (0x32 :: rest)).type = .Discard →
        out.result = ⟨.Discard, skip_data (0x32 :: rest) 1⟩) ∧
      (out.result.type = .Fill ↔ (dec.try_decode_nasa_packet (0x32 :: rest)).type = .Fill) := by
  rw [process_data_auto]
  have hA2 : (dec.try_decode_non_nasa_packet (0x32 :: rest)).type ≠ .Processed := by
    rw [hA]; decide
  cases hty : (dec.try_decode_nasa_packet (0x32 :: rest)).type with
  | Fill => simp [hA, hty]
  | Discard => simp [hA, hty]
  | Processed => exact absurd hty hB

/-- C4, amended, at the buffer `32 00` with both decoders asking for more data. -/
theorem process_data_auto_follows_nasa_witness :
    ∃ out, process_data fillDecoders .Auto (0x32 :: [0x00]) = some out ∧
      out.protocol_processing = .Auto ∧
      ((fillDecoders.try_decode_nasa_packet (0x32 :: [0x00])).type = .Fill →
        out.result = fillDecoders.try_decode_nasa_packet (0x32 :: [0x00]) ∧
        out.result.type = .Fill) ∧
      ((fillDecoders.try_decode_nasa_packet (0x32 :: [0x00])).type = .Discard →
        out.result = ⟨.Discard, skip_data (0x32 :: [0x00]) 1⟩) ∧
      (out.result.type = .Fill ↔
        (fillDecoders.try_decode_nasa_packet (0x32 :: [0x00])).type = .Fill) :=
  process_data_auto_follows_nasa fillDecoders [0x00] rfl (by decide)

/-- C5: with the mode locked to a family, on every non-empty buffer `process_data`
returns, keeps the mode, and reports `Processed` only if that family's own decoder
returned `Processed`; the other family's decoder and dispatcher are not called, and
two decoder pairs that agree on the locked family's decoder give the same outcome.
So a buffer that only the other family's decoder would decode is reported as
`Discard` or `Fill`. -/
theorem process_data_locked_ignores_other_family (dec dec' : Decoders) (data : List Nat)
    (hne : data ≠ []) :
    ∃ outNonNasa outNasa,
      process_data dec .NonNASA data = some outNonNasa ∧
      process_data dec .NASA data = some outNasa ∧
      outNonNasa.protocol_processing = .NonNASA ∧
      outNasa.protocol_processing = .NASA ∧
      (outNonNasa.result.type = .Processed →
        (dec.try_decode_non_nasa_packet data).type = .Processed) ∧
      (outNasa.result.type = .Processed →
        (dec.try_decode_nasa_packet data).type = .Processed) ∧
      Call.try_decode_nasa_packet ∉ outNonNasa.calls ∧
      Call.process_nasa_packet ∉ outNonNasa.calls ∧
      Call.try_decode_non_nasa_packet ∉ outNasa.calls ∧
      Call.process_non_nasa_packet ∉ outNasa.calls ∧
      (dec'.try_decode_non_nasa_packet = dec.try_decode_non_nasa_packet →
        process_data dec' .NonNASA data = some outNonNasa) ∧
      (dec'.try_decode_nasa_packet = dec.try_decode_nasa_packet →
        process_data dec' .NASA data = some outNasa) ∧
      ((dec.try_decode_non_nasa_packet data).type ≠ .Processed →
        outNonNasa.result.type = .Discard ∨ outNonNasa.result.type = .Fill) ∧
      ((dec.try_decode_nasa_packet data).type ≠ .Processed →
        outNasa.result.type = .Discard ∨ outNasa.result.type = .Fill) := by
  cases data with
  | nil => exact absurd rfl hne
  | cons first rest =>
    by_cases hfirst : first = 0x32
    · subst hfirst
      simp only [process_data_nonnasa, process_data_nasa]
      cases h1 : (dec.try_decode_non_nasa_packet (0x32 :: rest)).type <;>
        cases h2 : (dec.try_decode_nasa_packet (0x32 :: rest)).type <;>
        simp_all
    · simp only [process_data_no_marker _ _ first rest hfirst]
      simp

/-- C5 at a buffer starting with `0x32` that both decoders would decode. -/
theorem process_data_locked_ignores_other_family_witness :
    ∃ outNonNasa outNasa,
      process_data bothDecodeDecoders .NonNASA [0x32, 0x00] = some outNonNasa ∧
      process_data bothDecodeDecoders .NASA [0x32, 0x00] = some outNasa ∧
      outNonNasa.protocol_processing = .NonNASA ∧
      outNasa.protocol_processing = .NASA ∧
      (outNonNasa.result.type = .Processed →
        (bothDecodeDecoders.try_decode_non_nasa_packet [0x32, 0x00]).type = .Processed) ∧
      (outNasa.result.type = .Processed →
        (bothDecodeDecoders.try_decode_nasa_packet [0x32, 0x00]).type = .Processed) ∧
      Call.try_decode_nasa_packet ∉ outNonNasa.calls ∧
      Call.process_nasa_packet ∉ outNonNasa.calls ∧
      Call.try_decode_non_nasa_packet ∉ outNasa.calls ∧
      Call.process_non_nasa_packet ∉ outNasa.calls ∧
      (nonNasaOnlyDecoders.try_decode_non_nasa_packet =
          bothDecodeDecoders.try_decode_non_nasa_packet →
        process_data nonNasaOnlyDecoders .NonNASA [0x32, 0x00] = some outNonNasa) ∧
      (nonNasaOnlyDecoders.try_decode_nasa_packet =
          bothDecodeDecoders.try_decode_nasa_packet →
        process_data nonNasaOnlyDecoders .NASA [0x32, 0x00] = some outNasa) ∧
      ((bothDecodeDecoders.try_decode_non_nasa_packet [0x32, 0x00]).type ≠ .Processed →
        outNonNasa.result.type = .Discard ∨ outNonNasa.result.type = .Fill) ∧
      ((bothDecodeDecoders.try_decode_nasa_packet [0x32, 0x00]).type ≠ .Processed →
        outNasa.result.type = .Discard ∨ outNasa.result.type = .Fill) :=
  process_data_locked_ignores_other_family bothDecodeDecoders nonNasaOnlyDecoders [0x32, 0x00]
    (by decide)

/-! ## Send queue: the claims -/

/-- C6: `ack_data id` removes the head, and nothing else, when the queue is
non-empty and the head's id is `id`; with an empty queue, or a head whose id
differs from `id` (whatever the ids of later frames), the state is unchanged. -/
theorem ack_data_removes_only_matching_head (id : Nat) (s : Samsung_AC) :
    (∀ head rest, s.send_queue_ = head :: rest → head.id = id →
      ack_data id s = { s with send_queue_ := rest }) ∧
    (s.send_queue_ = [] → ack_data id s = s) ∧
    (∀ head rest, s.send_queue_ = head :: rest → head.id ≠ id → ack_data id s = s) := by
  refine ⟨?_, ?_, ?_⟩
  · intro head rest hq hid
    simp [ack_data, hq, hid]
  · intro hq
    simp [ack_data, hq]
  · intro head rest hq hid
    simp [ack_data, hq, hid]

/-- C6 on a queue holding ids 5 and 7: acknowledging 7 (a later frame's id) changes
nothing, acknowledging 5 removes the head and keeps the frame with id 7. -/
theorem ack_data_removes_only_matching_head_witness :
    ack_data 7 twoQueued = twoQueued ∧
    ack_data 5 twoQueued =
      { twoQueued with send_queue_ := [⟨7, [0x32, 0x07], 0, 4000, 0⟩] } :=
  ⟨(ack_data_removes_only_matching_head 7 twoQueued).2.2 _ _ rfl (by decide),
   (ack_data_removes_only_matching_head 5 twoQueued).1 _ _ rfl rfl⟩

/-- C7, counterexample: a frame published with id 1 at time 5 gets next-retry time
0, not 5; and a frame published at time 4294967295 gets expiry 3999, not
4294967295 + 4000. So it is not true that every frame is queued with next-retry
time `now` and expiry `now + sendTimeout`. -/
theorem publish_data_next_retry_not_now :
    ((publish_data 5 1 [0x01, 0x02] Samsung_AC.init).send_queue_ =
        [⟨1, [0x01, 0x02], 0, 4005, 0⟩] ∧
      (publish_data 4294967295 1 [0x01, 0x02] Samsung_AC.init).send_queue_ =
        [⟨1, [0x01, 0x02], 0, 3999, 0⟩]) ∧
    ¬ (∀ (now id : Nat) (data : List Nat) (s : Samsung_AC), id ≠ 0 →
        ∃ frame, (publish_data now id data s).send_queue_ = s.send_queue_ ++ [frame] ∧
          frame.id = id ∧ frame.data = data ∧ frame.retries = 0 ∧
          frame.nextRetry = now ∧ frame.timeout = now + sendTimeout) := by
  refine ⟨⟨rfl, rfl⟩, fun hall => ?_⟩
  obtain ⟨frame, hq, -, -, -, hnext, -⟩ :=
    hall 5 1 [0x01, 0x02] Samsung_AC.init (by decide)
  have heval : (publish_data 5 1 [0x01, 0x02] Samsung_AC.init).send_queue_ =
      [⟨1, [0x01, 0x02], 0, 4005, 0⟩] := rfl
  rw [heval] at hq
  simp only [Samsung_AC.init, List.nil_append, List.cons.injEq, and_true] at hq
  rw [← hq] at hnext
  simp at hnext

/-- C7, amended: for `id ≠ 0`, `publish_data` appends exactly one frame at the tail
and changes nothing else (nothing is written to the UART); the new frame has the
given id and bytes, retry count 0, next-retry time 0 and expiry
`(now + sendTimeout) % 2^32`, which is `now + 4000` unless the 32-bit clock is
within 4000 ms of wrapping. -/
theorem publish_data_appends_frame (now id : Nat) (data : List Nat) (s : Samsung_AC)
    (hid : id ≠ 0) :
    ∃ frame,
      publish_data now id data s = { s with send_queue_ := s.send_queue_ ++ [frame] } ∧
      (publish_data now id data s).written = s.written ∧
      frame.id = id ∧ frame.data = data ∧ frame.retries = 0 ∧ frame.nextRetry = 0 ∧
      frame.timeout = (now + sendTimeout) % 4294967296 ∧
      sendTimeout = 4000 ∧
      (now + 4000 < 4294967296 → frame.timeout = now + 4000) := by
  refine ⟨⟨id, data, 0, (now + sendTimeout) % 4294967296, 0⟩, ?_, ?_, rfl, rfl, rfl, rfl,
    rfl, rfl, ?_⟩
  · simp [publish_data, hid]
  · simp [publish_data, hid]
  · intro h
    simp only [sendTimeout]
    exact Nat.mod_eq_of_lt h

/-- C7, amended, for id 7 published at time 1000 behind two queued frames. -/
theorem publish_data_appends_frame_witness :
    ∃ frame,
      publish_data 1000 7 [0x01, 0x02] twoQueued =
        { twoQueued with send_queue_ := twoQueued.send_queue_ ++ [frame] } ∧
      (publish_data 1000 7 [0x01, 0x02] twoQueued).written = twoQueued.written ∧
      frame.id = 7 ∧ frame.data = [0x01, 0x02] ∧ frame.retries = 0 ∧ frame.nextRetry = 0 ∧
      frame.timeout = (1000 + sendTimeout) % 4294967296 ∧
      sendTimeout = 4000 ∧
      (1000 + 4000 < 4294967296 → frame.timeout = 1000 + 4000) :=
  publish_data_appends_frame 1000 7 [0x01, 0x02] twoQueued (by decide)

/-- C8: `publish_data 0 bytes` writes the bytes to the UART once, records the time
of the transmission and leaves every other member, the send queue included,
unchanged; an acknowledgement afterwards acts on the queue exactly as it would
have without the call, and a later `write_data` writes nothing or the bytes of the
head of that unchanged queue. -/
theorem publish_data_zero_bypasses_queue (now : Nat) (data : List Nat) (s : Samsung_AC) :
    publish_data now 0 data s =
      { s with last_transmission_ := now, written := s.written ++ [data] } ∧
    (publish_data now 0 data s).written = s.written ++ [data] ∧
    (publish_data now 0 data s).send_queue_ = s.send_queue_ ∧
    (∀ id, (ack_data id (publish_data now 0 data s)).send_queue_ =
      (ack_data id s).send_queue_) ∧
    (∀ later, (write_data later (publish_data now 0 data s)).1.written =
        s.written ++ [data] ∨
      ∃ head rest, s.send_queue_ = head :: rest ∧
        (write_data later (publish_data now 0 data s)).1.written =
          s.written ++ [data] ++ [head.data]) := by
  obtain ⟨queue, buf, last, lastUpdate, init, wr⟩ := s
  refine ⟨by simp [publish_data], by simp [publish_data], by simp [publish_data], ?_, ?_⟩
  · intro id
    cases queue with
    | nil => simp [publish_data, ack_data]
    | cons head rest =>
      by_cases h : head.id = id <;> simp [publish_data, ack_data, h]
  · intro later
    cases queue with
    | nil => simp [publish_data, write_data]
    | cons head rest =>
      simp only [publish_data, if_true, write_data]
      split_ifs <;> simp

/-- C9, counterexample: with a live head, after exactly 100 ms of silence and with
the next-retry time already reached nothing is written; and at exactly the
next-retry time, after 500 ms of silence, nothing is written either. So it is not
true that the head is written if and only if the silence is at least
`silenceInterval` and `nextRetry ≤ now`. -/
theorem write_data_waits_at_exact_bounds :
    ((freshHead.send_queue_ = [⟨7, [0x01, 0x02], 0, 4000, 0⟩] ∧
        ¬ expires 100 freshHead ∧
        sub32 100 freshHead.last_transmission_ = 100 ∧
        (write_data 100 freshHead).1 = freshHead) ∧
      (sentOnce.send_queue_ = [⟨7, [0x01, 0x02], 700, 4000, 0⟩] ∧
        ¬ expires 700 sentOnce ∧
        sub32 700 sentOnce.last_transmission_ = 500 ∧
        (write_data 700 sentOnce).1 = sentOnce)) ∧
    ¬ (∀ (now : Nat) (s : Samsung_AC) (head : OutgoingData) (rest : List OutgoingData),
        s.send_queue_ = head :: rest →
        ¬ (head.timeout ≤ now ∧ head.retries ≥ minRetries) →
        ((write_data now s).1.written = s.written ++ [head.data] ↔
          (sub32 now s.last_transmission_ ≥ silenceInterval ∧ head.nextRetry ≤ now))) := by
  refine ⟨by decide, fun hall => ?_⟩
  have h := hall 100 freshHead ⟨7, [0x01, 0x02], 0, 4000, 0⟩ [] rfl (by decide)
  have hcond : sub32 100 freshHead.last_transmission_ ≥ silenceInterval ∧
      (⟨7, [0x01, 0x02], 0, 4000, 0⟩ : OutgoingData).nextRetry ≤ 100 := by decide
  have hw := h.mpr hcond
  revert hw
  decide

/-- C9, amended: with a non-empty queue whose head is not dropped by the expiry
rule, `write_data` writes the head's bytes to the UART if and only if the 32-bit
difference `now - last_transmission_` is strictly greater than `silenceInterval`
(100) and the head's `nextRetry` is strictly less than `now`; otherwise it changes
nothing. It returns `true` either way. When the clock has not wrapped since the
last transmission the 32-bit difference is the elapsed time. -/
theorem write_data_transmits_iff (now : Nat) (s : Samsung_AC) (head : OutgoingData)
    (rest : List OutgoingData) (hq : s.send_queue_ = head :: rest)
    (hlive : ¬ (head.timeout ≤ now ∧ head.retries ≥ minRetries)) :
    ((write_data now s).1.written = s.written ++ [head.data] ↔
      (sub32 now s.last_transmission_ > silenceInterval ∧ head.nextRetry < now)) ∧
    (¬ (sub32 now s.last_transmission_ > silenceInterval ∧ head.nextRetry < now) →
      (write_data now s).1 = s) ∧
    (write_data now s).2 = true ∧
    silenceInterval = 100 ∧
    (s.last_transmission_ ≤ now → now < 4294967296 →
      sub32 now s.last_transmission_ = now - s.last_transmission_) := by
  obtain ⟨queue, buf, last, lastUpdate, init, wr⟩ := s
  simp only at hq
  subst hq
  refine ⟨?_, ?_, ?_, rfl, ?_⟩
  · by_cases hc : sub32 now last > silenceInterval ∧ head.nextRetry < now
    · simp [write_data, hlive, hc]
    · simp [write_data, hlive, hc]
  · intro hc
    simp [write_data, hlive, hc]
  · simp only [write_data]
    split_ifs <;> rfl
  · intro hle hnow
    have hle' : last ≤ now := hle
    simp only [sub32]
    have hl : last < 4294967296 := lt_of_le_of_lt hle' hnow
    rw [Nat.mod_eq_of_lt hnow, Nat.mod_eq_of_lt hl]
    omega

/-- C9, amended, for a never-sent head at time 101 after a transmission at time 0:
the head's bytes are written. -/
theorem write_data_transmits_iff_witness :
    ((write_data 101 freshHead).1.written = freshHead.written ++ [[0x01, 0x02]] ↔
      (sub32 101 freshHead.last_transmission_ > silenceInterval ∧ 0 < 101)) ∧
    (¬ (sub32 101 freshHead.last_transmission_ > silenceInterval ∧ 0 < 101) →
      (write_data 101 freshHead).1 = freshHead) ∧
    (write_data 101 freshHead).2 = true ∧
    silenceInterval = 100 ∧
    (freshHead.last_transmission_ ≤ 101 → 101 < 4294967296 →
      sub32 101 freshHead.last_transmission_ = 101 - freshHead.last_transmission_) :=
  write_data_transmits_iff 101 freshHead ⟨7, [0x01, 0x02], 0, 4000, 0⟩ [] rfl (by decide)

/-! ## Every expired frame was written at least twice -/

/-- What `track` records for a `write_data` call on a non-empty queue: the head's
counter leaves with the head when the call takes the expiry branch, goes up by one
when the call writes the head's bytes to the UART, and is kept otherwise. -/
theorem track_write_data (now : Nat) (s : Samsung_AC) (head : OutgoingData)
    (rest : List OutgoingData) (c : Nat) (cs : List Nat)
    (hq : s.send_queue_ = head :: rest) :
    track s (c :: cs) (.write_data now) =
      if head.timeout ≤ now ∧ head.retries ≥ minRetries then cs
      else if (write_data now s).1.written = s.written ++ [head.data] then (c + 1) :: cs
      else c :: cs := by
  obtain ⟨queue, buf, last, lastUpdate, init, wr⟩ := s
  simp only at hq
  subst hq
  by_cases hexp : head.timeout ≤ now ∧ head.retries ≥ minRetries
  · simp [track, step, write_data, hexp]
  · by_cases hc : sub32 now last > silenceInterval ∧ head.nextRetry < now
    · simp [track, step, write_data, hexp, hc]
    · simp [track, step, write_data, hexp, hc]

/-- One call keeps every queued frame's counter consistent with its fields. -/
theorem step_keeps_counters (s : Samsung_AC) (sent : List Nat) (op : Op)
    (h : List.Forall₂ FrameSent s.send_queue_ sent) :
    List.Forall₂ FrameSent (step s op).send_queue_ (track s sent op) := by
  obtain ⟨queue, buf, last, lastUpdate, init, wr⟩ := s
  simp only at h
  cases op with
  | publish_data now id data =>
    by_cases hid : id = 0
    · simpa [step, track, publish_data, hid] using h
    · simp only [step, track, publish_data, hid, if_false, List.length_append,
        List.length_singleton, if_true]
      exact List.rel_append h (List.Forall₂.cons ⟨by simp, by simp⟩ List.Forall₂.nil)
  | ack_data id =>
    cases h with
    | nil => simp [step, track, ack_data]
    | cons hhead htail =>
      rename_i head c rest cs
      by_cases hid : head.id = id
      · simpa [step, track, ack_data, hid] using htail
      · simpa [step, track, ack_data, hid] using List.Forall₂.cons hhead htail
  | write_data now =>
    cases h with
    | nil => simp [step, track, write_data]
    | cons hhead htail =>
      rename_i head c rest cs
      by_cases hexp : head.timeout ≤ now ∧ head.retries ≥ minRetries
      · simpa [step, track, write_data, hexp] using htail
      · by_cases hc : sub32 now last > silenceInterval ∧ head.nextRetry < now
        · have hw : write_data now ⟨head :: rest, buf, last, lastUpdate, init, wr⟩ =
              (⟨{ head with
                    retries :=
                      if head.nextRetry > 0 then (head.retries + 1) % 256 else head.retries
                    nextRetry := (now + retryInterval) % 4294967296 } :: rest,
                buf, now, lastUpdate, init, wr ++ [head.data]⟩, true) := by
            simp [write_data, hexp, hc]
          simp only [step, track, hw, List.length_cons, lt_self_iff_false, if_false,
            List.length_append, List.length_singleton, List.length_nil, Nat.zero_add, if_true]
          refine List.Forall₂.cons ⟨fun _ => Nat.succ_le_succ (Nat.zero_le _), ?_⟩ htail
          intro hret
          simp only at hret
          by_cases hnr : head.nextRetry > 0
          · have := hhead.1 hnr
            omega
          · simp only [hnr, if_false] at hret
            have := hhead.2 hret
            omega
        · simpa [step, track, write_data, hexp, hc] using List.Forall₂.cons hhead htail

/-- A run keeps every queued frame's counter consistent with its fields. -/
theorem run_keeps_counters (ops : List Op) (c : Samsung_AC × List Nat)
    (h : List.Forall₂ FrameSent c.1.send_queue_ c.2) :
    List.Forall₂ FrameSent (run c ops).1.send_queue_ (run c ops).2 := by
  induction ops generalizing c with
  | nil => exact h
  | cons op ops ih =>
    simp only [run]
    exact ih _ (step_keeps_counters c.1 c.2 op h)

/-- C10: after any run of `publish_data`, `ack_data` and `write_data` calls from an
empty queue (whatever the clock values), a `write_data` that removes the head
through the expiry branch (`timeout ≤ now` and `retries ≥ minRetries`) removes a
frame whose bytes have been written to the UART at least `minRetries + 1 = 2`
times. -/
theorem expired_frame_was_written_twice (s0 : Samsung_AC) (hempty : s0.send_queue_ = [])
    (ops : List Op) (now : Nat) (hexp : expires now (run (s0, []) ops).1) :
    ∃ head rest c cs,
      (run (s0, []) ops).1.send_queue_ = head :: rest ∧
      (run (s0, []) ops).2 = c :: cs ∧
      (head.timeout ≤ now ∧ head.retries ≥ minRetries) ∧
      (write_data now (run (s0, []) ops).1).1.send_queue_ = rest ∧
      minRetries + 1 ≤ c ∧ minRetries + 1 = 2 := by
  have hinv := run_keeps_counters ops (s0, []) (by simp [hempty])
  generalize run (s0, []) ops = r at hinv hexp
  obtain ⟨⟨queue, buf, last, lastUpdate, init, wr⟩, sent⟩ := r
  simp only at hinv
  cases hinv with
  | nil => simp [expires, write_data] at hexp
  | cons hhead htail =>
    rename_i head c rest cs
    by_cases hbr : head.timeout ≤ now ∧ head.retries ≥ minRetries
    · refine ⟨head, rest, c, cs, rfl, rfl, hbr, by simp [write_data, hbr], ?_, rfl⟩
      have := hhead.2 hbr.2
      simpa [minRetries] using this
    · exfalso
      simp only [expires, write_data, hbr, if_false] at hexp
      split_ifs at hexp <;> simp at hexp

/-- C10 on the run: publish id 7 at time 1, first write at 200, retry at 800; the
`write_data` at time 5000 drops the frame, which has been written twice. -/
theorem expired_frame_was_written_twice_witness :
    ∃ head rest c cs,
      (run (Samsung_AC.init, [])
        [.publish_data 1 7 [0x01, 0x02], .write_data 200, .write_data 800]).1.send_queue_ =
          head :: rest ∧
      (run (Samsung_AC.init, [])
        [.publish_data 1 7 [0x01, 0x02], .write_data 200, .write_data 800]).2 = c :: cs ∧
      (head.timeout ≤ 5000 ∧ head.retries ≥ minRetries) ∧
      (write_data 5000 (run (Samsung_AC.init, [])
        [.publish_data 1 7 [0x01, 0x02], .write_data 200, .write_data 800]).1).1.send_queue_ =
          rest ∧
      minRetries + 1 ≤ c ∧ minRetries + 1 = 2 :=
  expired_frame_was_written_twice Samsung_AC.init rfl
    [.publish_data 1 7 [0x01, 0x02], .write_data 200, .write_data 800] 5000 (by decide)

/-! ## Lemmas on the outcome of `process_data` -/

/-- Without a leading `0x32`, `std::find` from the start stops at some `k ≥ 1`. -/
theorem skip_data_no_marker_pos (first : Nat) (rest : List Nat) (hfirst : first ≠ 0x32) :
    ∃ k, 1 ≤ k ∧ k ≤ (first :: rest).length ∧ skip_data (first :: rest) 0 = k % 65536 := by
  obtain ⟨k, -, hk, -, hat, hskip⟩ := skip_data_spec (first :: rest) 0 (Nat.zero_le _)
  refine ⟨k, ?_, hk, hskip⟩
  by_contra hlt
  have hk0 : k = 0 := by omega
  subst hk0
  rcases hat with hlen | hget
  · simp at hlen
  · simp at hget
    exact hfirst hget

/-- From position 1, `std::find` stops at some `k ≥ 1` within the buffer. -/
theorem skip_data_after_marker_pos (first : Nat) (rest : List Nat) :
    ∃ k, 1 ≤ k ∧ k ≤ (first :: rest).length ∧ skip_data (first :: rest) 1 = k % 65536 := by
  obtain ⟨k, h1, hk, -, -, hskip⟩ := skip_data_spec (first :: rest) 1 (by simp)
  exact ⟨k, h1, hk, hskip⟩

/-- What each kind of outcome of `process_data` brings with it: `Fill` and `Discard`
leave the mode alone and call no dispatcher, a `Discard` count is `k % 65536` for a
position `1 ≤ k ≤ length`, and a `Processed` result is the result of a decoder. -/
theorem process_data_outcome (dec : Decoders) (mode : ProtocolProcessing)
    (data : List Nat) (out : ProcessOutcome) (h : process_data dec mode data = some out) :
    (out.result.type ≠ .Processed →
      out.protocol_processing = mode ∧
      Call.process_non_nasa_packet ∉ out.calls ∧ Call.process_nasa_packet ∉ out.calls) ∧
    (out.result.type = .Discard →
      ∃ k, 1 ≤ k ∧ k ≤ data.length ∧ out.result.bytes = k % 65536) ∧
    (out.result.type = .Processed →
      (out.result = dec.try_decode_non_nasa_packet data ∨
        out.result = dec.try_decode_nasa_packet data)) := by
  cases data with
  | nil => simp [process_data] at h
  | cons first rest =>
    by_cases hfirst : first = 0x32
    · subst hfirst
      have hk := skip_data_after_marker_pos 0x32 rest
      cases mode with
      | NonNASA =>
        rw [process_data_nonnasa] at h
        split_ifs at h <;> cases h <;> simp_all
      | NASA =>
        rw [process_data_nasa] at h
        split_ifs at h <;> cases h <;> simp_all
      | Auto =>
        rw [process_data_auto] at h
        split_ifs at h <;> cases h <;> simp_all
    · have hk := skip_data_no_marker_pos first rest hfirst
      rw [process_data_no_marker dec mode first rest hfirst] at h
      cases h
      simp_all

/-- On a non-empty buffer `process_data` returns. -/
theorem process_data_returns (dec : Decoders) (mode : ProtocolProcessing)
    (data : List Nat) (hne : data ≠ []) : ∃ out, process_data dec mode data = some out := by
  cases data with
  | nil => exact absurd rfl hne
  | cons first rest =>
    by_cases hfirst : first = 0x32
    · subst hfirst
      cases mode with
      | NonNASA => rw [process_data_nonnasa]; split_ifs <;> exact ⟨_, rfl⟩
      | NASA => rw [process_data_nasa]; split_ifs <;> exact ⟨_, rfl⟩
      | Auto => rw [process_data_auto]; split_ifs <;> exact ⟨_, rfl⟩
    · exact ⟨_, process_data_no_marker dec mode first rest hfirst⟩

/-- When no frame was decoded no dispatcher ran, so nothing was called on the
`MessageTarget`. -/
theorem dispatched_nil (env : Collaborators) (data : List Nat) (s : Samsung_AC)
    (calls : List Call) (h1 : Call.process_non_nasa_packet ∉ calls)
    (h2 : Call.process_nasa_packet ∉ calls) : dispatched env data s calls = [] := by
  simp [dispatched, h1, h2]

/-! ## Lemmas on `MessageTarget` calls and on `read_data` -/

/-- One `MessageTarget` call leaves the buffer and the maintenance members alone,
changes the queue only by removing its head or appending at its tail, and writes
to the UART only the bytes of a `publish_data` with id 0. -/
theorem targetCall_run (c : TargetCall) (s : Samsung_AC) :
    (c.run s).data_ = s.data_ ∧
    (c.run s).data_processing_init = s.data_processing_init ∧
    (c.run s).last_protocol_update_ = s.last_protocol_update_ ∧
    (c.run s).written = s.written ++ immediateWrites [c] ∧
    ∃ d appended, (c.run s).send_queue_ = s.send_queue_.drop d ++ appended := by
  obtain ⟨queue, buf, last, lastUpdate, init, wr⟩ := s
  cases c with
  | publish_data now id data =>
    by_cases hid : id = 0
    · simp only [TargetCall.run, publish_data, hid, if_true, immediateWrites, true_and]
      exact ⟨0, [], by simp⟩
    · simp only [TargetCall.run, publish_data, hid, if_false, immediateWrites,
        List.append_nil, true_and]
      exact ⟨0, _, rfl⟩
  | ack_data id =>
    cases queue with
    | nil =>
      simp only [TargetCall.run, ack_data, immediateWrites, List.append_nil, true_and]
      exact ⟨0, [], rfl⟩
    | cons head rest =>
      by_cases hid : head.id = id
      · simp only [TargetCall.run, ack_data, hid, if_true, immediateWrites,
          List.append_nil, true_and]
        exact ⟨1, [], by simp⟩
      · simp only [TargetCall.run, ack_data, hid, if_false, immediateWrites,
          List.append_nil, true_and]
        exact ⟨0, [], by simp⟩

/-- The writes of two lists of calls, one after the other. -/
theorem immediateWrites_cons (c : TargetCall) (calls : List TargetCall) :
    immediateWrites (c :: calls) = immediateWrites [c] ++ immediateWrites calls := by
  cases c with
  | publish_data now id data =>
    by_cases hid : id = 0 <;> simp [immediateWrites, hid]
  | ack_data id => simp [immediateWrites]

/-- A list of `MessageTarget` calls: as `targetCall_run`, for the whole list. -/
theorem targetCalls_run (calls : List TargetCall) (s : Samsung_AC) :
    (calls.foldl TargetCall.run s).data_ = s.data_ ∧
    (calls.foldl TargetCall.run s).data_processing_init = s.data_processing_init ∧
    (calls.foldl TargetCall.run s).last_protocol_update_ = s.last_protocol_update_ ∧
    (calls.foldl TargetCall.run s).written = s.written ++ immediateWrites calls ∧
    ∃ d appended,
      (calls.foldl TargetCall.run s).send_queue_ = s.send_queue_.drop d ++ appended := by
  induction calls generalizing s with
  | nil => exact ⟨rfl, rfl, rfl, by simp [immediateWrites], 0, [], by simp⟩
  | cons c calls ih =>
    obtain ⟨h1, h2, h3, h4, d1, a1, h5⟩ := targetCall_run c s
    obtain ⟨i1, i2, i3, i4, d2, a2, i5⟩ := ih (c.run s)
    simp only [List.foldl_cons]
    refine ⟨i1.trans h1, i2.trans h2, i3.trans h3, ?_, ?_⟩
    · rw [i4, h4, immediateWrites_cons c calls, List.append_assoc]
    · refine ⟨d1 + d2, a1.drop (d2 - (s.send_queue_.drop d1).length) ++ a2, ?_⟩
      rw [i5, h5, List.drop_append_eq_append_drop, List.drop_drop, List.append_assoc]

/-- The calls do not look at the buffer: filling it first changes only `data_`. -/
theorem targetCalls_run_data (calls : List TargetCall) (s : Samsung_AC) (buf : List Nat) :
    calls.foldl TargetCall.run { s with data_ := buf } =
      { calls.foldl TargetCall.run s with data_ := buf } := by
  induction calls generalizing s with
  | nil => rfl
  | cons c calls ih =>
    simp only [List.foldl_cons]
    rw [← ih (c.run s)]
    congr 1
    obtain ⟨queue, old, last, lastUpdate, init, wr⟩ := s
    cases c with
    | publish_data now id data =>
      by_cases hid : id = 0 <;> simp [TargetCall.run, publish_data, hid]
    | ack_data id =>
      cases queue with
      | nil => simp [TargetCall.run, ack_data]
      | cons head rest =>
        by_cases hid : head.id = id <;> simp [TargetCall.run, ack_data, hid]

/-- The body of `read_data` after the scan of a non-empty buffer returned `out`. -/
theorem read_data_scan (env : Collaborators) (now : Nat) (rx : List Nat) (b : Bus)
    (out : ProcessOutcome)
    (hscan : process_data env.decoders b.protocol_processing (b.ac.data_ ++ rx) = some out) :
    read_data env now rx b =
      if out.result.type = .Fill then
        some (⟨(dispatched env (b.ac.data_ ++ rx) { b.ac with data_ := b.ac.data_ ++ rx }
          out.calls).foldl TargetCall.run { b.ac with data_ := b.ac.data_ ++ rx },
          out.protocol_processing, b.devices_⟩, false)
      else if out.result.type = .Discard ∧ out.result.bytes = (b.ac.data_ ++ rx).length ∧
          sub32 now ((dispatched env (b.ac.data_ ++ rx)
            { b.ac with data_ := b.ac.data_ ++ rx } out.calls).foldl TargetCall.run
              { b.ac with data_ := b.ac.data_ ++ rx }).last_transmission_ < 1000 then
        some (⟨(dispatched env (b.ac.data_ ++ rx) { b.ac with data_ := b.ac.data_ ++ rx }
          out.calls).foldl TargetCall.run { b.ac with data_ := b.ac.data_ ++ rx },
          out.protocol_processing, b.devices_⟩, false)
      else if out.result.bytes = (b.ac.data_ ++ rx).length then
        some (⟨{ (dispatched env (b.ac.data_ ++ rx) { b.ac with data_ := b.ac.data_ ++ rx }
          out.calls).foldl TargetCall.run { b.ac with data_ := b.ac.data_ ++ rx } with
            data_ := [], last_transmission_ := now },
          out.protocol_processing, b.devices_⟩, false)
      else if out.result.bytes < (b.ac.data_ ++ rx).length then
        some (⟨{ (dispatched env (b.ac.data_ ++ rx) { b.ac with data_ := b.ac.data_ ++ rx }
          out.calls).foldl TargetCall.run { b.ac with data_ := b.ac.data_ ++ rx } with
            data_ := (b.ac.data_ ++ rx).drop out.result.bytes, last_transmission_ := now },
          out.protocol_processing, b.devices_⟩, false)
      else none := by
  have hne : b.ac.data_ ++ rx ≠ [] := by
    intro hnil
    rw [hnil] at hscan
    simp [process_data] at hscan
  simp only [read_data, hne, if_false, hscan]

/-! ## The scheduler tick: the claims on `read_data` -/

/-- C13: when the scan of the (non-empty) accumulator returns `Fill`, `read_data`
returns `false` and changes nothing but `data_`, which holds the old bytes followed
by the drained ones: nothing is consumed, `last_transmission_`, the queue and the
protocol mode are as before. A second `read_data` with no new bytes scans the same
buffer in the same mode, gets the same `Fill` outcome and again changes nothing. -/
theorem read_data_fill_consumes_nothing (env : Collaborators) (now later : Nat)
    (rx : List Nat) (b : Bus) (out : ProcessOutcome)
    (hscan : process_data env.decoders b.protocol_processing (b.ac.data_ ++ rx) = some out)
    (hfill : out.result.type = .Fill) :
    ∃ after,
      read_data env now rx b = some (after, false) ∧
      after = { b with ac := { b.ac with data_ := b.ac.data_ ++ rx } } ∧
      after.ac.data_ = b.ac.data_ ++ rx ∧
      after.ac.last_transmission_ = b.ac.last_transmission_ ∧
      after.protocol_processing = b.protocol_processing ∧
      process_data env.decoders after.protocol_processing (after.ac.data_ ++ []) =
        some out ∧
      read_data env later [] after = some (after, false) := by
  obtain ⟨hmode, hnn, hnasa⟩ :=
    (process_data_outcome env.decoders b.protocol_processing (b.ac.data_ ++ rx) out hscan).1
      (by rw [hfill]; decide)
  have hfirst : read_data env now rx b =
      some ({ b with ac := { b.ac with data_ := b.ac.data_ ++ rx } }, false) := by
    rw [read_data_scan env now rx b out hscan, if_pos hfill,
      dispatched_nil env _ _ _ hnn hnasa, hmode]
    rfl
  have hscan2 : process_data env.decoders
      ({ b with ac := { b.ac with data_ := b.ac.data_ ++ rx } } : Bus).protocol_processing
      (({ b with ac := { b.ac with data_ := b.ac.data_ ++ rx } } : Bus).ac.data_ ++ []) =
        some out := by
    simpa using hscan
  refine ⟨_, hfirst, rfl, rfl, rfl, rfl, hscan2, ?_⟩
  rw [read_data_scan env later [] _ out hscan2, if_pos hfill,
    dispatched_nil env _ _ _ hnn hnasa, hmode]
  simp

/-- C13 on a buffer `32 00` to which `00` is drained, with decoders that ask for
more data. -/
theorem read_data_fill_consumes_nothing_witness :
    ∃ after,
      read_data quietCollaborators 60 [0x00] partialFrameBus = some (after, false) ∧
      after = { partialFrameBus with
                ac := { partialFrameBus.ac with data_ := partialFrameBus.ac.data_ ++ [0x00] } } ∧
      after.ac.data_ = partialFrameBus.ac.data_ ++ [0x00] ∧
      after.ac.last_transmission_ = partialFrameBus.ac.last_transmission_ ∧
      after.protocol_processing = partialFrameBus.protocol_processing ∧
      process_data quietCollaborators.decoders after.protocol_processing
        (after.ac.data_ ++ []) =
          some ⟨⟨.Fill, 0⟩, .Auto, [.try_decode_non_nasa_packet, .try_decode_nasa_packet]⟩ ∧
      read_data quietCollaborators 70 [] after = some (after, false) :=
  read_data_fill_consumes_nothing quietCollaborators 60 70 [0x00] partialFrameBus
    ⟨⟨.Fill, 0⟩, .Auto, [.try_decode_non_nasa_packet, .try_decode_nasa_packet]⟩
    (by decide) rfl

/-- What `read_data` does with a `Discard` outcome of the scan: it defers when the
count is the whole buffer and the bus was active less than 1000 ms ago, otherwise
it erases `bytes` bytes from the front and records the time; the count never
exceeds the buffer. -/
theorem read_data_discard (env : Collaborators) (now : Nat) (rx : List Nat) (b : Bus)
    (out : ProcessOutcome)
    (hscan : process_data env.decoders b.protocol_processing (b.ac.data_ ++ rx) = some out)
    (hdis : out.result.type = .Discard) :
    out.result.bytes ≤ (b.ac.data_ ++ rx).length ∧
    read_data env now rx b =
      if out.result.bytes = (b.ac.data_ ++ rx).length ∧
          sub32 now b.ac.last_transmission_ < 1000 then
        some ({ b with ac := { b.ac with data_ := b.ac.data_ ++ rx } }, false)
      else
        some ({ b with
                ac := { b.ac with
                        data_ := (b.ac.data_ ++ rx).drop out.result.bytes
                        last_transmission_ := now } }, false) := by
  obtain ⟨hno, hcount, -⟩ :=
    process_data_outcome env.decoders b.protocol_processing (b.ac.data_ ++ rx) out hscan
  obtain ⟨hmode, hnn, hnasa⟩ := hno (by rw [hdis]; decide)
  obtain ⟨k, -, hk, hbytes⟩ := hcount hdis
  have hle : out.result.bytes ≤ (b.ac.data_ ++ rx).length := by
    rw [hbytes]
    exact le_trans (Nat.mod_le _ _) hk
  refine ⟨hle, ?_⟩
  have hnf : out.result.type ≠ .Fill := by rw [hdis]; decide
  rw [read_data_scan env now rx b out hscan, if_neg hnf,
    dispatched_nil env _ _ _ hnn hnasa, hmode]
  simp only [List.foldl_nil, hdis, true_and]
  by_cases hdefer : out.result.bytes = (b.ac.data_ ++ rx).length ∧
      sub32 now b.ac.last_transmission_ < 1000
  · rw [if_pos hdefer, if_pos hdefer]
  · rw [if_neg hdefer, if_neg hdefer]
    by_cases hall : out.result.bytes = (b.ac.data_ ++ rx).length
    · rw [if_pos hall, hall, List.drop_length]
    · rw [if_neg hall, if_pos (lt_of_le_of_ne hle hall)]

/-- C14, counterexample: on a buffer of 65536 zero bytes the scan returns `Discard`
with count 0, and `read_data`, the bus having been silent for 5000 ms, executes
that discard: it records the time and removes nothing. So a `Discard` count need
not be at least 1. -/
theorem discard_count_zero_at_65536 :
    (process_data fillDecoders .Auto (0 :: List.replicate 65535 0) =
        some ⟨⟨.Discard, 0⟩, .Auto, []⟩ ∧
      read_data quietCollaborators 5000 (0 :: List.replicate 65535 0) idleBus =
        some ({ idleBus with
                ac := { idleBus.ac with
                        data_ := 0 :: List.replicate 65535 0
                        last_transmission_ := 5000 } }, false)) ∧
    ¬ (∀ (dec : Decoders) (mode : ProtocolProcessing) (data : List Nat)
        (out : ProcessOutcome), data ≠ [] → process_data dec mode data = some out →
        out.result.type = .Discard →
        1 ≤ out.result.bytes ∧ out.result.bytes ≤ data.length) := by
  refine ⟨⟨process_data_zeros, ?_⟩, fun hall => ?_⟩
  · have hscan : process_data quietCollaborators.decoders idleBus.protocol_processing
        (idleBus.ac.data_ ++ (0 :: List.replicate 65535 0)) =
          some ⟨⟨.Discard, 0⟩, .Auto, []⟩ := process_data_zeros
    have h := (read_data_discard quietCollaborators 5000 (0 :: List.replicate 65535 0)
      idleBus _ hscan rfl).2
    have hlen : (idleBus.ac.data_ ++ (0 :: List.replicate 65535 0)).length = 65536 :=
      length_zeros 65535
    rw [hlen] at h
    rw [h]
    rfl
  · have h := (hall fillDecoders .Auto (0 :: List.replicate 65535 0) _
      (List.cons_ne_nil _ _) process_data_zeros rfl).1
    exact absurd h (by decide)

/-- C14, amended: whenever the scan of the accumulator returns `Discard`, in any
mode and with any decoders, its byte count `n` is `k % 65536` for a position
`1 ≤ k ≤ length`, so `n ≤ length`, and `1 ≤ n` when the buffer is shorter than 65536
bytes. `read_data` then returns `false`, and either defers (whole buffer, bus active
less than 1000 ms ago) or erases exactly the first `n` bytes, within the buffer; for
a buffer shorter than 65536 bytes an executed discard makes the buffer shorter. -/
theorem discard_count_within_buffer (env : Collaborators) (now : Nat) (rx : List Nat)
    (b : Bus) (out : ProcessOutcome)
    (hscan : process_data env.decoders b.protocol_processing (b.ac.data_ ++ rx) = some out)
    (hdis : out.result.type = .Discard) :
    (∃ k, 1 ≤ k ∧ k ≤ (b.ac.data_ ++ rx).length ∧ out.result.bytes = k % 65536) ∧
    out.result.bytes ≤ (b.ac.data_ ++ rx).length ∧
    ((b.ac.data_ ++ rx).length < 65536 → 1 ≤ out.result.bytes) ∧
    ∃ after, read_data env now rx b = some (after, false) ∧
      ((out.result.bytes = (b.ac.data_ ++ rx).length ∧
          sub32 now b.ac.last_transmission_ < 1000) →
        after.ac.data_ = b.ac.data_ ++ rx) ∧
      (¬ (out.result.bytes = (b.ac.data_ ++ rx).length ∧
          sub32 now b.ac.last_transmission_ < 1000) →
        after.ac.data_ = (b.ac.data_ ++ rx).drop out.result.bytes ∧
        after.ac.data_.length + out.result.bytes = (b.ac.data_ ++ rx).length ∧
        after.ac.last_transmission_ = now ∧
        ((b.ac.data_ ++ rx).length < 65536 →
          after.ac.data_.length < (b.ac.data_ ++ rx).length)) := by
  obtain ⟨k, hk1, hk, hbytes⟩ :=
    (process_data_outcome env.decoders b.protocol_processing (b.ac.data_ ++ rx) out hscan).2.1
      hdis
  obtain ⟨hle, hread⟩ := read_data_discard env now rx b out hscan hdis
  have hpos : (b.ac.data_ ++ rx).length < 65536 → 1 ≤ out.result.bytes := by
    intro hlen
    rw [hbytes, Nat.mod_eq_of_lt (lt_of_le_of_lt hk hlen)]
    exact hk1
  refine ⟨⟨k, hk1, hk, hbytes⟩, hle, hpos, ?_⟩
  by_cases hdefer : out.result.bytes = (b.ac.data_ ++ rx).length ∧
      sub32 now b.ac.last_transmission_ < 1000
  · rw [if_pos hdefer] at hread
    exact ⟨_, hread, fun _ => rfl, fun hn => absurd hdefer hn⟩
  · rw [if_neg hdefer] at hread
    refine ⟨_, hread, fun hd => absurd hd hdefer, fun _ => ⟨rfl, ?_, rfl, ?_⟩⟩
    · simp only [List.length_drop]
      omega
    · intro hlen
      have := hpos hlen
      simp only [List.length_drop]
      omega

/-- C14, amended, on the buffer `ff fe 32 00` drained into an empty accumulator at
time 5000: the scan discards 2 bytes and `read_data` erases them. -/
theorem discard_count_within_buffer_witness :
    (∃ k, 1 ≤ k ∧ k ≤ (idleBus.ac.data_ ++ [0xFF, 0xFE, 0x32, 0x00]).length ∧
      (⟨.Discard, 2⟩ : DecodeResult).bytes = k % 65536) ∧
    (⟨.Discard, 2⟩ : DecodeResult).bytes ≤
      (idleBus.ac.data_ ++ [0xFF, 0xFE, 0x32, 0x00]).length ∧
    ((idleBus.ac.data_ ++ [0xFF, 0xFE, 0x32, 0x00]).length < 65536 →
      1 ≤ (⟨.Discard, 2⟩ : DecodeResult).bytes) ∧
    ∃ after, read_data quietCollaborators 5000 [0xFF, 0xFE, 0x32, 0x00] idleBus =
        some (after, false) ∧
      (((⟨.Discard, 2⟩ : DecodeResult).bytes =
            (idleBus.ac.data_ ++ [0xFF, 0xFE, 0x32, 0x00]).length ∧
          sub32 5000 idleBus.ac.last_transmission_ < 1000) →
        after.ac.data_ = idleBus.ac.data_ ++ [0xFF, 0xFE, 0x32, 0x00]) ∧
      (¬ ((⟨.Discard, 2⟩ : DecodeResult).bytes =
            (idleBus.ac.data_ ++ [0xFF, 0xFE, 0x32, 0x00]).length ∧
          sub32 5000 idleBus.ac.last_transmission_ < 1000) →
        after.ac.data_ =
          (idleBus.ac.data_ ++ [0xFF, 0xFE, 0x32, 0x00]).drop
            (⟨.Discard, 2⟩ : DecodeResult).bytes ∧
        after.ac.data_.length + (⟨.Discard, 2⟩ : DecodeResult).bytes =
          (idleBus.ac.data_ ++ [0xFF, 0xFE, 0x32, 0x00]).length ∧
        after.ac.last_transmission_ = 5000 ∧
        ((idleBus.ac.data_ ++ [0xFF, 0xFE, 0x32, 0x00]).length < 65536 →
          after.ac.data_.length <
            (idleBus.ac.data_ ++ [0xFF, 0xFE, 0x32, 0x00]).length)) :=
  discard_count_within_buffer quietCollaborators 5000 [0xFF, 0xFE, 0x32, 0x00] idleBus
    ⟨⟨.Discard, 2⟩, .Auto, []⟩ (by decide) rfl

/-! ## Only the head of the queue is ever sent -/

/-- One call keeps the counters aligned with the queue and every frame behind the
head unsent. -/
theorem step_keeps_unsent (s : Samsung_AC) (sent : List Nat) (op : Op)
    (hlen : sent.length = s.send_queue_.length)
    (h : List.Forall₂ Unsent s.send_queue_.tail sent.tail) :
    (track s sent op).length = (step s op).send_queue_.length ∧
    List.Forall₂ Unsent (step s op).send_queue_.tail (track s sent op).tail := by
  obtain ⟨queue, buf, last, lastUpdate, init, wr⟩ := s
  simp only at hlen h
  cases queue with
  | nil =>
    have hs : sent = [] := List.length_eq_zero.mp (by simpa using hlen)
    subst hs
    cases op with
    | publish_data now id data =>
      by_cases hid : id = 0 <;> simp [step, track, publish_data, hid]
    | ack_data id => simp [step, track, ack_data]
    | write_data now => simp [step, track, write_data]
  | cons head rest =>
    cases sent with
    | nil => simp at hlen
    | cons c cs =>
      simp only [List.tail_cons] at h
      have hlen2 : cs.length = rest.length := by simpa using hlen
      cases op with
      | publish_data now id data =>
        by_cases hid : id = 0
        · simpa [step, track, publish_data, hid, hlen2] using h
        · simp only [step, track, publish_data, hid, if_false, List.length_append,
            List.length_singleton, List.length_cons, List.length_nil, Nat.zero_add,
            if_true, List.cons_append, List.tail_cons, hlen2, true_and]
          exact List.rel_append h (List.Forall₂.cons
            (show Unsent ⟨id, data, 0, (now + sendTimeout) % 4294967296, 0⟩ 0 from
              ⟨rfl, rfl, rfl⟩) List.Forall₂.nil)
      | ack_data id =>
        by_cases hid : head.id = id
        · simp only [step, track, ack_data, hid, if_true, List.length_cons,
            Nat.lt_succ_self, List.tail_cons, hlen2, true_and]
          cases h with
          | nil => exact List.Forall₂.nil
          | cons _ htail => exact htail
        · simpa [step, track, ack_data, hid, hlen2] using h
      | write_data now =>
        by_cases hexp : head.timeout ≤ now ∧ head.retries ≥ minRetries
        · simp only [step, track, write_data, hexp, if_true, List.length_cons,
            Nat.lt_succ_self, List.tail_cons, hlen2, true_and, and_self]
          cases h with
          | nil => exact List.Forall₂.nil
          | cons _ htail => exact htail
        · by_cases hc : sub32 now last > silenceInterval ∧ head.nextRetry < now
          · simpa [step, track, write_data, hexp, hc, hlen2] using h
          · simpa [step, track, write_data, hexp, hc, hlen2] using h

/-- A run keeps the counters aligned with the queue and every frame behind the head
unsent. -/
theorem run_keeps_unsent (ops : List Op) (c : Samsung_AC × List Nat)
    (hlen : c.2.length = c.1.send_queue_.length)
    (h : List.Forall₂ Unsent c.1.send_queue_.tail c.2.tail) :
    (run c ops).2.length = (run c ops).1.send_queue_.length ∧
    List.Forall₂ Unsent (run c ops).1.send_queue_.tail (run c ops).2.tail := by
  induction ops generalizing c with
  | nil => exact ⟨hlen, h⟩
  | cons op ops ih =>
    simp only [run]
    obtain ⟨h1, h2⟩ := step_keeps_unsent c.1 c.2 op hlen h
    exact ih _ h1 h2

/-- One call changes the queue in one of four ways only: not at all, by appending a
never-sent frame at the tail, by removing the head, or by updating the head in
place (same id, bytes and expiry). -/
theorem step_queue_shape (s : Samsung_AC) (op : Op) :
    (step s op).send_queue_ = s.send_queue_ ∨
    (∃ frame, (step s op).send_queue_ = s.send_queue_ ++ [frame] ∧
      frame.retries = 0 ∧ frame.nextRetry = 0) ∨
    (∃ head rest, s.send_queue_ = head :: rest ∧ (step s op).send_queue_ = rest) ∨
    (∃ head updated rest, s.send_queue_ = head :: rest ∧
      (step s op).send_queue_ = updated :: rest ∧
      updated.id = head.id ∧ updated.data = head.data ∧ updated.timeout = head.timeout) := by
  obtain ⟨queue, buf, last, lastUpdate, init, wr⟩ := s
  cases op with
  | publish_data now id data =>
    by_cases hid : id = 0
    · left; simp [step, publish_data, hid]
    · right; left
      exact ⟨⟨id, data, 0, (now + sendTimeout) % 4294967296, 0⟩,
        by simp [step, publish_data, hid], rfl, rfl⟩
  | ack_data id =>
    cases queue with
    | nil => left; simp [step, ack_data]
    | cons head rest =>
      by_cases hid : head.id = id
      · right; right; left
        exact ⟨head, rest, rfl, by simp [step, ack_data, hid]⟩
      · left; simp [step, ack_data, hid]
  | write_data now =>
    cases queue with
    | nil => left; simp [step, write_data]
    | cons head rest =>
      by_cases hexp : head.timeout ≤ now ∧ head.retries ≥ minRetries
      · right; right; left
        exact ⟨head, rest, rfl, by simp [step, write_data, hexp]⟩
      · by_cases hc : sub32 now last > silenceInterval ∧ head.nextRetry < now
        · right; right; right
          exact ⟨head,
            { head with
              retries :=
                if head.nextRetry > 0 then (head.retries + 1) % 256 else head.retries
              nextRetry := (now + retryInterval) % 4294967296 },
            rest, rfl, by simp [step, write_data, hexp, hc], rfl, rfl, rfl⟩
        · left; simp [step, write_data, hexp, hc]

/-- C12: after any run of `publish_data`, `ack_data` and `write_data` calls from an
empty queue, every frame behind the head has retry count 0 and next-retry time 0
and its bytes have never been written to the UART (its counter is 0); so at most
one queued frame, the head, has ever been sent. Any further call changes the queue
only by appending a never-sent frame at the tail, removing the head, or updating
the head in place: frames leave from the head only, in the order they joined. -/
theorem only_head_was_ever_sent (s0 : Samsung_AC) (hempty : s0.send_queue_ = [])
    (ops : List Op) :
    (run (s0, []) ops).2.length = (run (s0, []) ops).1.send_queue_.length ∧
    (∀ f ∈ (run (s0, []) ops).1.send_queue_.tail, f.retries = 0 ∧ f.nextRetry = 0) ∧
    (∀ c ∈ (run (s0, []) ops).2.tail, c = 0) ∧
    (∀ op,
      (step (run (s0, []) ops).1 op).send_queue_ = (run (s0, []) ops).1.send_queue_ ∨
      (∃ frame, (step (run (s0, []) ops).1 op).send_queue_ =
          (run (s0, []) ops).1.send_queue_ ++ [frame] ∧
        frame.retries = 0 ∧ frame.nextRetry = 0) ∨
      (∃ head rest, (run (s0, []) ops).1.send_queue_ = head :: rest ∧
        (step (run (s0, []) ops).1 op).send_queue_ = rest) ∨
      (∃ head updated rest, (run (s0, []) ops).1.send_queue_ = head :: rest ∧
        (step (run (s0, []) ops).1 op).send_queue_ = updated :: rest ∧
        updated.id = head.id ∧ updated.data = head.data ∧
        updated.timeout = head.timeout)) := by
  obtain ⟨hlen, hun⟩ := run_keeps_unsent ops (s0, []) (by simp [hempty]) (by simp [hempty])
  refine ⟨hlen, ?_, ?_, fun op => step_queue_shape _ op⟩
  · intro f hf
    generalize (run (s0, []) ops).1.send_queue_.tail = q at hun hf
    generalize (run (s0, []) ops).2.tail = cs at hun
    induction hun with
    | nil => simp at hf
    | cons hhead _ ih =>
      rcases List.mem_cons.mp hf with hfe | hfe
      · subst hfe
        exact ⟨hhead.1, hhead.2.1⟩
      · exact ih hfe
  · intro c hc
    generalize (run (s0, []) ops).1.send_queue_.tail = q at hun
    generalize (run (s0, []) ops).2.tail = cs at hun hc
    induction hun with
    | nil => simp at hc
    | cons hhead _ ih =>
      rcases List.mem_cons.mp hc with hce | hce
      · subst hce
        exact hhead.2.2
      · exact ih hce

/-- C12 on the run: publish id 7 at time 1 and id 8 at time 2, then a
`write_data` at time 200 that sends the head. -/
theorem only_head_was_ever_sent_witness :
    (run (Samsung_AC.init, [])
      [.publish_data 1 7 [0x01], .publish_data 2 8 [0x02], .write_data 200]).1.send_queue_ =
        [⟨7, [0x01], 700, 4001, 0⟩, ⟨8, [0x02], 0, 4002, 0⟩] ∧
    (run (Samsung_AC.init, [])
      [.publish_data 1 7 [0x01], .publish_data 2 8 [0x02], .write_data 200]).2 = [1, 0] ∧
    (∀ f ∈ (run (Samsung_AC.init, [])
        [.publish_data 1 7 [0x01], .publish_data 2 8 [0x02],
          .write_data 200]).1.send_queue_.tail,
      f.retries = 0 ∧ f.nextRetry = 0) ∧
    (∀ c ∈ (run (Samsung_AC.init, [])
        [.publish_data 1 7 [0x01], .publish_data 2 8 [0x02], .write_data 200]).2.tail,
      c = 0) :=
  ⟨by decide, by decide,
    (only_head_was_ever_sent Samsung_AC.init rfl
      [.publish_data 1 7 [0x01], .publish_data 2 8 [0x02], .write_data 200]).2.1,
    (only_head_was_ever_sent Samsung_AC.init rfl
      [.publish_data 1 7 [0x01], .publish_data 2 8 [0x02], .write_data 200]).2.2.1⟩

/-! ## The scheduler tick: the claims on `loop` -/

/-- With decoders that stay within the buffer, `read_data` is defined. -/
theorem read_data_returns (env : Collaborators) (now : Nat) (rx : List Nat) (b : Bus)
    (hdec : DecodersInBounds env.decoders) : ∃ result, read_data env now rx b = some result := by
  by_cases hne : b.ac.data_ ++ rx = []
  · simp only [read_data, hne, if_true]
    exact ⟨_, rfl⟩
  · obtain ⟨r, hr⟩ := process_data_returns env.decoders b.protocol_processing _ hne
    obtain ⟨-, hdis, hproc⟩ := process_data_outcome _ _ _ r hr
    rw [read_data_scan env now rx b r hr]
    have hle : r.result.type ≠ .Fill → r.result.bytes ≤ (b.ac.data_ ++ rx).length := by
      intro hnf
      cases hty : r.result.type with
      | Fill => exact absurd hty hnf
      | Discard =>
        obtain ⟨k, -, hk, hbytes⟩ := hdis hty
        rw [hbytes]
        exact le_trans (Nat.mod_le _ _) hk
      | Processed =>
        rcases hproc hty with heq | heq
        · rw [heq] at hty ⊢
          exact (hdec _).1 hty
        · rw [heq] at hty ⊢
          exact (hdec _).2 hty
    split_ifs with h1 h2 h3 h4
    · exact ⟨_, rfl⟩
    · exact ⟨_, rfl⟩
    · exact ⟨_, rfl⟩
    · exact ⟨_, rfl⟩
    · exact absurd (lt_of_le_of_ne (hle h1) h3) h4

/-- One `MessageTarget` call removes at most the head of the queue, and only if it
is an `ack_data`; what it appends is a never-sent frame. -/
theorem targetCall_queue (c : TargetCall) (s : Samsung_AC) :
    ∃ d appended, d ≤ acknowledgements [c] ∧
      (c.run s).send_queue_ = s.send_queue_.drop d ++ appended ∧
      ∀ f ∈ appended, f.retries = 0 ∧ f.nextRetry = 0 := by
  obtain ⟨queue, buf, last, lastUpdate, init, wr⟩ := s
  cases c with
  | publish_data now id data =>
    by_cases hid : id = 0
    · exact ⟨0, [], Nat.zero_le _, by simp [TargetCall.run, publish_data, hid], by simp⟩
    · refine ⟨0, [⟨id, data, 0, (now + sendTimeout) % 4294967296, 0⟩], Nat.zero_le _,
        by simp [TargetCall.run, publish_data, hid], ?_⟩
      intro f hf
      rw [List.mem_singleton] at hf
      subst hf
      exact ⟨rfl, rfl⟩
  | ack_data id =>
    cases queue with
    | nil => exact ⟨0, [], Nat.zero_le _, by simp [TargetCall.run, ack_data], by simp⟩
    | cons head rest =>
      by_cases hid : head.id = id
      · exact ⟨1, [], by simp [acknowledgements],
          by simp [TargetCall.run, ack_data, hid], by simp⟩
      · exact ⟨0, [], Nat.zero_le _, by simp [TargetCall.run, ack_data, hid], by simp⟩

/-- The `ack_data` calls of a list, split at its first call. -/
theorem acknowledgements_cons (c : TargetCall) (calls : List TargetCall) :
    acknowledgements (c :: calls) = acknowledgements [c] + acknowledgements calls := by
  cases c with
  | publish_data now id data => simp [acknowledgements]
  | ack_data id => simp [acknowledgements, Nat.add_comm]

/-- A list of `MessageTarget` calls removes at most as many frames from the head of
the queue as it holds `ack_data` calls, keeps every other queued frame as it is, in
order, and appends only never-sent frames. -/
theorem targetCalls_queue (calls : List TargetCall) (s : Samsung_AC) :
    ∃ d appended, d ≤ acknowledgements calls ∧
      (calls.foldl TargetCall.run s).send_queue_ = s.send_queue_.drop d ++ appended ∧
      ∀ f ∈ appended, f.retries = 0 ∧ f.nextRetry = 0 := by
  induction calls generalizing s with
  | nil => exact ⟨0, [], Nat.zero_le _, by simp, by simp⟩
  | cons c calls ih =>
    obtain ⟨d1, a1, hd1, hq1, ha1⟩ := targetCall_queue c s
    obtain ⟨d2, a2, hd2, hq2, ha2⟩ := ih (c.run s)
    refine ⟨d1 + d2, a1.drop (d2 - (s.send_queue_.drop d1).length) ++ a2, ?_, ?_, ?_⟩
    · rw [acknowledgements_cons]
      omega
    · simp only [List.foldl_cons]
      rw [hq2, hq1, List.drop_append_eq_append_drop, List.drop_drop, List.append_assoc]
    · intro f hf
      rcases List.mem_append.mp hf with h | h
      · exact ha1 f (List.mem_of_mem_drop h)
      · exact ha2 f h

/-- With bytes in the accumulator after draining, `read_data` returns `false`, and it
leaves the queue and the UART writes as the `MessageTarget` calls of the dispatcher
called by the scan (none unless a frame was decoded) made them. -/
theorem read_data_dispatch (env : Collaborators) (now : Nat) (rx : List Nat) (b : Bus)
    (r : ProcessOutcome)
    (hr : process_data env.decoders b.protocol_processing (b.ac.data_ ++ rx) = some r)
    (after : Bus) (flag : Bool) (h : read_data env now rx b = some (after, flag)) :
    flag = false ∧
    after.ac.send_queue_ =
      ((dispatched env (b.ac.data_ ++ rx) { b.ac with data_ := b.ac.data_ ++ rx }
        r.calls).foldl TargetCall.run b.ac).send_queue_ ∧
    after.ac.written =
      ((dispatched env (b.ac.data_ ++ rx) { b.ac with data_ := b.ac.data_ ++ rx }
        r.calls).foldl TargetCall.run b.ac).written ∧
    after.devices_ = b.devices_ ∧
    after.protocol_processing = r.protocol_processing := by
  rw [read_data_scan env now rx b r hr] at h
  have hd := targetCalls_run_data
    (dispatched env (b.ac.data_ ++ rx) { b.ac with data_ := b.ac.data_ ++ rx } r.calls)
    b.ac (b.ac.data_ ++ rx)
  split_ifs at h <;>
    · simp only [Option.some.injEq, Prod.mk.injEq] at h
      obtain ⟨hb, hf⟩ := h
      refine ⟨hf.symm, ?_, ?_, ?_, ?_⟩ <;>
        · rw [← hb, hd]

/-- C11: in a tick of `loop` with a non-empty accumulator after draining, the tick
is `read_data` and nothing else: `write_data` is not called and no device gets a
`protocol_update`, whatever the scan returns (before data processing has started
the tick does nothing at all). After the tick the queue and the UART writes are
exactly what the `MessageTarget` calls of the packet dispatcher called by the scan
made of them; the dispatcher is called only for a decoded frame, so after `Fill` or
`Discard` the queue and the UART writes are unchanged. Also after a decoded frame
no queued frame is transmitted or expired: the bytes written are those of the
dispatcher's `publish_data` calls with id 0, at most as many frames leave the head
as the dispatcher made `ack_data` calls, every other queued frame is kept as it is
(same retry count and next-retry time), and frames that join are never-sent ones at
the tail. The tick is defined whenever the decoders stay within the buffer. -/
theorem loop_read_priority (env : Collaborators) (t : Millis) (rx : List Nat) (b : Bus)
    (hne : b.ac.data_ ++ rx ≠ []) :
    (loop env t rx b =
      if b.ac.data_processing_init = true then some (b, [])
      else (read_data env t.read_data rx b).map (fun p => (p.1, [Event.read_data]))) ∧
    (∀ after events, loop env t rx b = some (after, events) →
      Event.write_data ∉ events ∧
      (∀ address, Event.protocol_update address ∉ events) ∧
      ∃ r, process_data env.decoders b.protocol_processing (b.ac.data_ ++ rx) = some r ∧
        (b.ac.data_processing_init = true → after = b) ∧
        (b.ac.data_processing_init = false →
          after.ac.send_queue_ =
            ((dispatched env (b.ac.data_ ++ rx) { b.ac with data_ := b.ac.data_ ++ rx }
              r.calls).foldl TargetCall.run b.ac).send_queue_ ∧
          after.ac.written = b.ac.written ++
            immediateWrites (dispatched env (b.ac.data_ ++ rx)
              { b.ac with data_ := b.ac.data_ ++ rx } r.calls)) ∧
        (r.result.type ≠ .Processed →
          after.ac.send_queue_ = b.ac.send_queue_ ∧ after.ac.written = b.ac.written) ∧
        ∃ d appended,
          (b.ac.data_processing_init = false →
            d ≤ acknowledgements (dispatched env (b.ac.data_ ++ rx)
              { b.ac with data_ := b.ac.data_ ++ rx } r.calls)) ∧
          (b.ac.data_processing_init = true → d = 0) ∧
          after.ac.send_queue_ = b.ac.send_queue_.drop d ++ appended ∧
          ∀ f ∈ appended, f.retries = 0 ∧ f.nextRetry = 0) ∧
    (DecodersInBounds env.decoders → ∃ result, loop env t rx b = some result) := by
  obtain ⟨r, hr⟩ := process_data_returns env.decoders b.protocol_processing _ hne
  have hloop : loop env t rx b =
      if b.ac.data_processing_init = true then some (b, [])
      else (read_data env t.read_data rx b).map (fun p => (p.1, [Event.read_data])) := by
    by_cases hinit : b.ac.data_processing_init = true
    · simp [loop, hinit]
    · simp only [loop]
      rw [if_neg hinit, if_neg hinit]
      cases hread : read_data env t.read_data rx b with
      | none => rfl
      | some res =>
        obtain ⟨mid, flag⟩ := res
        have hflag := (read_data_dispatch env t.read_data rx b r hr mid flag hread).1
        subst hflag
        rfl
  refine ⟨hloop, ?_, ?_⟩
  · intro after events h
    rw [hloop] at h
    by_cases hinit : b.ac.data_processing_init = true
    · rw [if_pos hinit] at h
      simp only [Option.some.injEq, Prod.mk.injEq] at h
      obtain ⟨hb, he⟩ := h
      subst hb he
      refine ⟨by simp, by simp, r, hr, fun _ => rfl, fun hf => ?_, fun _ => ⟨rfl, rfl⟩,
        0, [], fun hf => ?_, fun _ => rfl, by simp, by simp⟩
      · rw [hinit] at hf
        cases hf
      · rw [hinit] at hf
        cases hf
    · rw [if_neg hinit] at h
      have hfalse : b.ac.data_processing_init = false := by
        cases hv : b.ac.data_processing_init with
        | true => exact absurd hv hinit
        | false => rfl
      cases hread : read_data env t.read_data rx b with
      | none => simp [hread] at h
      | some res =>
        obtain ⟨mid, flag⟩ := res
        obtain ⟨-, hq, hw, -, -⟩ := read_data_dispatch env t.read_data rx b r hr mid flag hread
        rw [hread] at h
        simp only [Option.map_some', Option.some.injEq, Prod.mk.injEq] at h
        obtain ⟨hb, he⟩ := h
        subst hb he
        obtain ⟨-, -, -, hwritten, -⟩ := targetCalls_run
          (dispatched env (b.ac.data_ ++ rx) { b.ac with data_ := b.ac.data_ ++ rx } r.calls)
          b.ac
        obtain ⟨d, appended, hd, hshape, happ⟩ := targetCalls_queue
          (dispatched env (b.ac.data_ ++ rx) { b.ac with data_ := b.ac.data_ ++ rx } r.calls)
          b.ac
        refine ⟨by simp, by simp, r, hr, fun hi => absurd hi hinit,
          fun _ => ⟨hq, hw.trans hwritten⟩, fun hnp => ?_,
          d, appended, fun _ => hd, fun hi => absurd hi hinit, hq.trans hshape, happ⟩
        obtain ⟨-, hnn, hnasa⟩ := (process_data_outcome _ _ _ r hr).1 hnp
        have hnil := dispatched_nil env (b.ac.data_ ++ rx)
          { b.ac with data_ := b.ac.data_ ++ rx } r.calls hnn hnasa
        rw [hnil] at hq hw
        exact ⟨hq, hw⟩
  · intro hdec
    by_cases hinit : b.ac.data_processing_init = true
    · rw [hloop, if_pos hinit]
      exact ⟨_, rfl⟩
    · obtain ⟨res, hread⟩ := read_data_returns env t.read_data rx b hdec
      rw [hloop, if_neg hinit, hread]
      exact ⟨_, rfl⟩

/-- C11 on a tick at time 5000 with `32 00` buffered and a never-sent, eligible
frame with id 7 queued: the scan decodes the two bytes, the dispatcher acknowledges
id 7, and the tick ends after `read_data` with the queue empty and nothing written
to the UART. -/
theorem loop_read_priority_witness :
    loop ackingCollaborators ⟨5000, 5000, 5000⟩ [] pendingReadBus =
      some ({ pendingReadBus with
              ac := { pendingReadBus.ac with
                      data_ := [], send_queue_ := [], last_transmission_ := 5000 }
              protocol_processing := .NonNASA }, [.read_data]) ∧
    ((loop ackingCollaborators ⟨5000, 5000, 5000⟩ [] pendingReadBus =
      if pendingReadBus.ac.data_processing_init = true then some (pendingReadBus, [])
      else (read_data ackingCollaborators 5000 [] pendingReadBus).map
        (fun p => (p.1, [Event.read_data]))) ∧
    (∀ after events,
      loop ackingCollaborators ⟨5000, 5000, 5000⟩ [] pendingReadBus = some (after, events) →
      Event.write_data ∉ events ∧
      (∀ address, Event.protocol_update address ∉ events) ∧
      ∃ r, process_data ackingCollaborators.decoders pendingReadBus.protocol_processing
          (pendingReadBus.ac.data_ ++ []) = some r ∧
        (pendingReadBus.ac.data_processing_init = true → after = pendingReadBus) ∧
        (pendingReadBus.ac.data_processing_init = false →
          after.ac.send_queue_ =
            ((dispatched ackingCollaborators (pendingReadBus.ac.data_ ++ [])
              { pendingReadBus.ac with data_ := pendingReadBus.ac.data_ ++ [] }
              r.calls).foldl TargetCall.run pendingReadBus.ac).send_queue_ ∧
          after.ac.written = pendingReadBus.ac.written ++
            immediateWrites (dispatched ackingCollaborators (pendingReadBus.ac.data_ ++ [])
              { pendingReadBus.ac with data_ := pendingReadBus.ac.data_ ++ [] } r.calls)) ∧
        (r.result.type ≠ .Processed →
          after.ac.send_queue_ = pendingReadBus.ac.send_queue_ ∧
          after.ac.written = pendingReadBus.ac.written) ∧
        ∃ d appended,
          (pendingReadBus.ac.data_processing_init = false →
            d ≤ acknowledgements (dispatched ackingCollaborators
              (pendingReadBus.ac.data_ ++ [])
              { pendingReadBus.ac with data_ := pendingReadBus.ac.data_ ++ [] } r.calls)) ∧
          (pendingReadBus.ac.data_processing_init = true → d = 0) ∧
          after.ac.send_queue_ = pendingReadBus.ac.send_queue_.drop d ++ appended ∧
          ∀ f ∈ appended, f.retries = 0 ∧ f.nextRetry = 0) ∧
    (DecodersInBounds ackingCollaborators.decoders →
      ∃ result,
        loop ackingCollaborators ⟨5000, 5000, 5000⟩ [] pendingReadBus = some result)) :=
  ⟨by decide,
    loop_read_priority ackingCollaborators ⟨5000, 5000, 5000⟩ [] pendingReadBus (by decide)⟩

/-- With nothing buffered after draining and an empty queue, a tick at least 200 ms
after the last maintenance round records the time and gives every registered device
its `protocol_update`, in order. -/
theorem loop_idle_maintenance (env : Collaborators) (t : Millis) (rx : List Nat) (b : Bus)
    (hinit : b.ac.data_processing_init = false) (hbuf : b.ac.data_ ++ rx = [])
    (hq : b.ac.send_queue_ = [])
    (hel : sub32 t.loop b.ac.last_protocol_update_ ≥ 200) :
    loop env t rx b =
      some ({ b with
              ac := protocol_updates env b.devices_
                { b.ac with data_ := [], last_protocol_update_ := t.loop } },
        [.read_data, .write_data] ++ b.devices_.map Event.protocol_update) := by
  obtain ⟨⟨queue, buf, last, lastUpdate, init, wr⟩, mode, devices⟩ := b
  simp only at hinit hbuf hq hel
  subst hinit hq
  simp [loop, read_data, write_data, hbuf, hel]

/-- With nothing buffered after draining and a non-empty queue, `write_data` returns
`true` whether or not it wrote or dropped anything, and the tick ends there: no
device gets a `protocol_update` and the maintenance time is not touched. -/
theorem loop_queue_blocks_maintenance (env : Collaborators) (t : Millis) (rx : List Nat)
    (b : Bus) (hinit : b.ac.data_processing_init = false) (hbuf : b.ac.data_ ++ rx = [])
    (hq : b.ac.send_queue_ ≠ []) :
    ∃ after, loop env t rx b = some (after, [.read_data, .write_data]) ∧
      after.ac.last_protocol_update_ = b.ac.last_protocol_update_ := by
  obtain ⟨⟨queue, buf, last, lastUpdate, init, wr⟩, mode, devices⟩ := b
  simp only at hinit hbuf hq
  subst hinit
  cases queue with
  | nil => exact absurd rfl hq
  | cons head rest =>
    by_cases hexp : head.timeout ≤ t.write_data ∧ head.retries ≥ minRetries
    · simp [loop, read_data, write_data, hbuf, hexp]
    · by_cases hc : sub32 t.write_data last > silenceInterval ∧ head.nextRetry < t.write_data
      · simp [loop, read_data, write_data, hbuf, hexp, hc]
      · simp [loop, read_data, write_data, hbuf, hexp, hc]

/-- C15, the code at the failing input: data processing has started, nothing is
buffered or received, 300 ms have passed since the last maintenance round, and the
queued frame waits for its retry time, so `write_data` at time 300 writes nothing
and drops nothing. The tick still ends after `write_data`: the registered device
gets no `protocol_update` and `last_protocol_update_` stays 0. -/
theorem loop_skips_maintenance_while_frame_waits :
    waitingBus.ac.data_processing_init = false ∧
    waitingBus.ac.data_ ++ [] = [] ∧
    waitingBus.devices_ = ["20.00.00"] ∧
    sub32 300 waitingBus.ac.last_protocol_update_ ≥ 200 ∧
    write_data 300 waitingBus.ac = (waitingBus.ac, true) ∧
    loop quietCollaborators ⟨300, 300, 300⟩ [] waitingBus =
      some (waitingBus, [.read_data, .write_data]) ∧
    Event.protocol_update "20.00.00" ∉ [Event.read_data, Event.write_data] := by
  decide

end SamsungAC
